import Mathlib

/-!
Verification of the gittuf git remote helper translator, embedded from
internal/git-remote-gittuf/curl.go (function handleCurl).

The translator sits between the controller (the parent git process, read on
stdin) and a child transport helper (git-remote-http).  We model both byte
streams as lists of already-split tokens (the splitters splitInput and
splitOutput frame the streams into newline-terminated commands or whole
pkt-line frames; the tokens of those splitters are the model's unit).  The
translator is embedded as an executable interpreter producing a trace of
observable events (writes to the child, writes to the controller, runs of the
gittuf rsl record subprocess, stream closes, the wait on the child) and a
final outcome.  Go index-out-of-range panics on unguarded slice accesses are
modelled explicitly as an Outcome.panicked result.
-/

/-- Constant from the source: the flush-pkt sentinel frame. -/
def flushPkt : String := "0000"

/-- Constant from the source: the response-end sentinel frame (named
endOfReadPkt in the source). -/
def endOfReadPkt : String := "0002"

/-- Constant from the source: the gittuf ref namespace (named gittufRefPrefix
in the source; renamed here). -/
def gittufRefPfx : String := "refs/gittuf/"

/-- Modelled from the spec: the constant rsl.Ref of the internal/rsl package
(not under src); per the spec the authoritative gittuf RSL ref is
refs/gittuf/reference-state-log. -/
def rslRef : String := "refs/gittuf/reference-state-log"

/-- Constant from the source: the specialised v2 service name. -/
def gitUploadPack : String := "git-upload-pack"

/-- Go unicode whitespace test restricted to the ASCII range (tab through
carriage return, and space), as used by strings.TrimSpace on the ASCII data
this helper handles. -/
def goIsSpace (c : Char) : Bool := (9 ≤ c.toNat && c.toNat ≤ 13) || c.toNat == 32

/-- Drop leading whitespace characters. -/
def trimLeadL : List Char → List Char
  | [] => []
  | c :: cs => if goIsSpace c then trimLeadL cs else c :: cs

/-- Embedding of strings.TrimSpace / bytes.TrimSpace. -/
def strTrimSpace (s : String) : String :=
  String.mk (List.reverse (trimLeadL (List.reverse (trimLeadL s.data))))

/-- Does the second list occur at the head of the first? -/
def startsWithL : List Char → List Char → Bool
  | _, [] => true
  | [], _ :: _ => false
  | a :: as, b :: bs => a == b && startsWithL as bs

/-- Embedding of strings.HasPrefix / bytes.HasPrefix (kernel-evaluable,
unlike String.startsWith whose byte-position recursion does not reduce). -/
def strStartsWith (s pre : String) : Bool := startsWithL s.data pre.data

/-- Split a character list at every occurrence of the separator character.
An empty input yields one empty group, matching Go strings.Split. -/
def splitChar (sep : Char) : List Char → List (List Char)
  | [] => [[]]
  | c :: rest =>
    let r := splitChar sep rest
    if c == sep then [] :: r
    else
      match r with
      | [] => [[c]]
      | g :: gs => (c :: g) :: gs

/-- Embedding of strings.Split / bytes.Split with a one-character separator
(the only separators the source uses are a space and a colon). -/
def strSplitChar (s : String) (sep : Char) : List String :=
  (splitChar sep s.data).map String.mk

/-- Does the needle occur anywhere in the haystack? -/
def hasSubL : List Char → List Char → Bool
  | [], needle => needle.isEmpty
  | c :: t, needle => startsWithL (c :: t) needle || hasSubL t needle

/-- Embedding of bytes.Contains: substring containment. -/
def strContains (hay needle : String) : Bool := hasSubL hay.data needle.data

/-- First index of a NUL byte, as bytes.IndexByte(s, 0). -/
def nulIdxL : List Char → Nat → Option Nat
  | [], _ => none
  | c :: t, i => if c.toNat == 0 then some i else nulIdxL t (i + 1)

/-- Lowercase hex digit. -/
def hexDigit (n : Nat) : Char :=
  if n < 10 then Char.ofNat (48 + n) else Char.ofNat (87 + n)

/-- Four lowercase hex digits. -/
def hex4 (n : Nat) : String :=
  String.mk [hexDigit (n / 4096 % 16), hexDigit (n / 256 % 16),
             hexDigit (n / 16 % 16), hexDigit (n % 16)]

/-- Modelled from the spec: packetEncode of the helper package (not under
src); spec 4.1: encode(p) = hex4(len(p)+4) followed by p. -/
def packetEncode (p : String) : String := hex4 (p.length + 4) ++ p

/-- The mutable gittufRefsTips map of the source, modelled as an association
list in insertion order (Go map iteration order is unspecified; the spec notes
no order is required). -/
abbrev Tips := List (String × String)

/-- The keys of the tips map. -/
def tipsKeys (t : Tips) : List String := t.map Prod.fst

/-- Go map assignment m[k] = v: overwrite the binding when the key is present,
otherwise append a new binding. -/
def tipsInsert (t : Tips) (k v : String) : Tips :=
  if t.any (fun kv => kv.1 == k) then
    t.map (fun kv => if kv.1 == k then (k, v) else kv)
  else t ++ [(k, v)]

/-- Observable events of one handleCurl invocation. -/
inductive Event where
  | writeChild (s : String)
  | writeOut (s : String)
  | runRSL (dst src : String) (ok : Bool)
  | closeChildStdIn
  | closeChildStdOut
  | waitChild
deriving Repr, DecidableEq

/-- The final result of the modelled handleCurl. -/
inductive Outcome where
  | ok (tips : Tips) (isPush : Bool)
  | errRecord (dst src : String)
  | panicked
  | outOfFuel
deriving Repr, DecidableEq

/-- The shutdown sequence at the end of handleCurl (source lines 375-387):
close the child's stdin, close the child's stdout, wait on the child. -/
def shutdownEvents : List Event :=
  [Event.closeChildStdIn, Event.closeChildStdOut, Event.waitChild]

/-- The loop-dispatch states of the source state machine: the values
currentState can hold when the top of the main loop is reached.  (The source
values lsRefsResponse, packfileIncoming and packfileDone are intra-branch
markers: they are set and consumed inside a single branch, which the
corresponding drain functions below embed structurally.) -/
inductive LoopState where
  | start
  | serviceRouter
  | lsRefs
  | requestingWants
deriving Repr, DecidableEq

/-- Source lines 76-86 and 230-240: forward the child's packets to the
controller until a flush-pkt is seen (inclusive); returns the events and the
remaining child stream. -/
def drainUntilFlush : List String → List Event × List String
  | [] => ([], [])
  | o :: rest =>
    if o = flushPkt then ([Event.writeOut o], rest)
    else
      let r := drainUntilFlush rest
      (Event.writeOut o :: r.1, r.2)

/-- Source lines 101-106: parse one list for-push response line; if it has at
least two space-separated fields and the second is a gittuf ref, record its
tip. -/
def listForPushStep (tips : Tips) (output : String) : Tips :=
  match strSplitChar (strTrimSpace output) ' ' with
  | oid :: refname :: _ =>
    if strStartsWith refname gittufRefPfx then tipsInsert tips refname oid else tips
  | _ => tips

/-- Source lines 98-115: drain the child's list for-push response, recording
gittuf ref tips and forwarding every line, until a flush-pkt is seen. -/
def drainListForPush (tips : Tips) : List String → List Event × Tips × List String
  | [] => ([], tips, [])
  | o :: rest =>
    let tips2 := listForPushStep tips o
    if o = flushPkt then ([Event.writeOut o], tips2, rest)
    else
      let r := drainListForPush tips2 rest
      (Event.writeOut o :: r.1, r.2)

/-- Source lines 121-190 (buffering part): starting from the current command,
collect push commands until the terminating blank line; returns the buffered
commands, the remaining controller stream, and whether the terminator was
seen before the controller stream ended. -/
def collectPushBatch : String → List String → List String × List String × Bool
  | cmd, stdin =>
    if cmd = "\n" then ([], stdin, true)
    else
      match stdin with
      | [] => ([cmd], [], false)
      | c :: rest =>
        let r := collectPushBatch c rest
        (cmd :: r.1, r.2)

/-- Source lines 146-149: take the second space-separated token of the
trimmed push command and split it at the first colon.  none models the Go
index-out-of-range panic of the unguarded [1] accesses (no second token, or a
refspec without a colon). -/
def pushCmdRefSpec (cmd : String) : Option (String × String) :=
  match strSplitChar (strTrimSpace cmd) ' ' with
  | _ :: refSpec :: _ =>
    match strSplitChar refSpec ':' with
    | src :: dst :: _ => some (src, dst)
    | _ => none
  | _ => none

/-- Result of processing a buffered push batch. -/
inductive BatchOutcome where
  | done
  | failed (dst src : String)
  | panicked
deriving Repr, DecidableEq

/-- Source lines 144-164: for each buffered push command, when the remote is
gittuf-enabled (tne) parse its refspec, run gittuf rsl record for non-gittuf
destination refs (aborting on a non-zero exit), then forward the command to
the child.  rok is the oracle giving the exit status of
gittuf rsl record --dst-ref dst src. -/
def processPushCmds (rok : String → String → Bool) (tne : Bool) :
    List String → List Event × BatchOutcome
  | [] => ([], BatchOutcome.done)
  | cmd :: rest =>
    if tne then
      match pushCmdRefSpec cmd with
      | none => ([], BatchOutcome.panicked)
      | some (src, dst) =>
        if strStartsWith dst gittufRefPfx then
          let r := processPushCmds rok tne rest
          (Event.writeChild cmd :: r.1, r.2)
        else
          if rok dst src then
            let r := processPushCmds rok tne rest
            (Event.runRSL dst src true :: Event.writeChild cmd :: r.1, r.2)
          else ([Event.runRSL dst src false], BatchOutcome.failed dst src)
    else
      let r := processPushCmds rok tne rest
      (Event.writeChild cmd :: r.1, r.2)

/-- Source lines 166-176: after forwarding the buffered commands, push the RSL
ref as well when the remote is gittuf-enabled, then terminate the batch with a
blank line. -/
def pushBatchTail (tne : Bool) : List Event :=
  (if tne then [Event.writeChild ("push " ++ rslRef ++ ":" ++ rslRef ++ "\n")] else [])
    ++ [Event.writeChild "\n"]

/-- Source lines 144-176: the whole push-batch processing region. -/
def processPushBatch (rok : String → String → Bool) (tne : Bool)
    (cmds : List String) : List Event × BatchOutcome :=
  let r := processPushCmds rok tne cmds
  match r.2 with
  | BatchOutcome.done => (r.1 ++ pushBatchTail tne, BatchOutcome.done)
  | other => (r.1, other)

/-- Source lines 195-217: drain the child's push report, suppressing every
packet that contains the gittuf ref namespace as a substring, until a
flush-pkt is seen. -/
def drainPushReport : List String → List Event × List String
  | [] => ([], [])
  | o :: rest =>
    let evs0 := if strContains o gittufRefPfx then [] else [Event.writeOut o]
    if o = flushPkt then (evs0, rest)
    else
      let r := drainPushReport rest
      (evs0 ++ r.1, r.2)

/-- Source lines 289-298: parse a ref advertisement packet of the ls-refs
response: drop the 4-byte length prefix (a Go panic when the frame is
shorter), trim, truncate at a NUL byte at positive index, and take the first
two space-separated fields; none models the Go index-out-of-range panic of
the unguarded refAdSplit[1] access when fewer than two fields exist. -/
def parseRefAd (output : String) : Option (String × String) :=
  if output.data.length < 4 then none
  else
    let refAd0 := strTrimSpace (String.mk (output.data.drop 4))
    let refAd :=
      match nulIdxL refAd0.data 0 with
      | some i => if 0 < i then String.mk (refAd0.data.take i) else refAd0
      | none => refAd0
    match strSplitChar refAd ' ' with
    | oid :: refname :: _ => some (oid, refname)
    | _ => none

/-- Source lines 286-310: drain the child's ls-refs response, forwarding every
packet, parsing every packet that is neither flush-pkt nor response-end-pkt
and recording gittuf ref tips, until a response-end-pkt is seen; none models
a parse panic. -/
def drainLsRefsResp (tips : Tips) : List String → List Event × Option (Tips × List String)
  | [] => ([], some (tips, []))
  | o :: rest =>
    if o = flushPkt then
      let r := drainLsRefsResp tips rest
      (Event.writeOut o :: r.1, r.2)
    else if o = endOfReadPkt then ([Event.writeOut o], some (tips, rest))
    else
      match parseRefAd o with
      | none => ([], none)
      | some (oid, refname) =>
        let tips2 := if strStartsWith refname gittufRefPfx then tipsInsert tips refname oid else tips
        let r := drainLsRefsResp tips2 rest
        (Event.writeOut o :: r.1, r.2)

/-- Source lines 341-364: forward the child's packfile packets to the
controller; on a response-end-pkt read one more controller token: none or an
empty token ends the session (packfileDone), a non-empty token is re-dispatched
as the start of a follow-up wants batch (the goto alreadyScanned).  Returns
the events, the remaining controller stream, the remaining child stream, and
the token to re-dispatch, if any. -/
def drainPackfile : List String → List String → List Event × List String × List String × Option String
  | stdin, [] => ([], stdin, [], none)
  | stdin, o :: rest =>
    if o = endOfReadPkt then
      match stdin with
      | [] => ([Event.writeOut o], [], rest, none)
      | c :: stdin2 =>
        if c = "" then ([Event.writeOut o], stdin2, rest, none)
        else ([Event.writeOut o], stdin2, rest, some c)
    else
      let r := drainPackfile stdin rest
      (Event.writeOut o :: r.1, r.2.1, r.2.2.1, r.2.2.2)

/-- Source lines 63-64: the service named in a stateless-connect command; none
models the Go panic of the unguarded commandSplit[1] access. -/
def serviceOf (cmd : String) : Option String :=
  match strSplitChar (strTrimSpace cmd) ' ' with
  | _ :: svc :: _ => some svc
  | _ => none

/-- Source lines 320-327: the want packets injected for the accumulated gittuf
ref tips. -/
def wantsFor (tips : Tips) : List Event :=
  tips.map (fun kv => Event.writeChild (packetEncode ("want " ++ kv.2 ++ "\n")))

/-- The main loop of handleCurl (source lines 51-373 plus the shutdown at
375-387), embedded as a fuel-indexed interpreter.  cmd is the current
controller token (the source's command variable at the alreadyScanned label),
stdin the not-yet-read controller tokens, childOut the not-yet-read child
tokens.  Each branch mirrors the corresponding case of the source switch; the
continuation after a branch either shuts down (controller stream exhausted,
or packfileDone) or recurses on the next controller token. -/
def runStep (rok : String → String → Bool) :
    Nat → LoopState → String → Tips → Bool → String → List String → List String →
    List Event × Outcome
  | 0, _, _, _, _, _, _, _ => ([], Outcome.outOfFuel)
  | Nat.succ fuel, LoopState.start, service, tips, isPush, cmd, stdin, childOut =>
    if strStartsWith cmd "stateless-connect" then
      match serviceOf cmd with
      | none => ([], Outcome.panicked)
      | some svc =>
        let d := drainUntilFlush childOut
        let evs := Event.writeChild cmd :: d.1
        match stdin with
        | [] => (evs ++ shutdownEvents, Outcome.ok tips isPush)
        | c :: s =>
          let r := runStep rok fuel LoopState.serviceRouter svc tips isPush c s d.2
          (evs ++ r.1, r.2)
    else if strStartsWith cmd "list for-push" then
      let d := drainListForPush tips childOut
      let evs := Event.writeChild cmd :: d.1
      match stdin with
      | [] => (evs ++ shutdownEvents, Outcome.ok d.2.1 isPush)
      | c :: s =>
        let r := runStep rok fuel LoopState.start service d.2.1 isPush c s d.2.2
        (evs ++ r.1, r.2)
    else if strStartsWith cmd "push" then
      let col := collectPushBatch cmd stdin
      if col.2.2 then
        let b := processPushBatch rok (!tips.isEmpty) col.1
        match b.2 with
        | BatchOutcome.panicked => (b.1, Outcome.panicked)
        | BatchOutcome.failed dst src => (b.1, Outcome.errRecord dst src)
        | BatchOutcome.done =>
          let d := drainPushReport childOut
          let evs := b.1 ++ d.1
          match col.2.1 with
          | [] => (evs ++ shutdownEvents, Outcome.ok tips true)
          | c :: s =>
            let r := runStep rok fuel LoopState.start service tips true c s d.2
            (evs ++ r.1, r.2)
      else
        let d := drainPushReport childOut
        match col.2.1 with
        | [] => (d.1 ++ shutdownEvents, Outcome.ok tips true)
        | c :: s =>
          let r := runStep rok fuel LoopState.start service tips true c s d.2
          (d.1 ++ r.1, r.2)
    else
      let d := drainUntilFlush childOut
      let evs := Event.writeChild cmd :: d.1
      match stdin with
      | [] => (evs ++ shutdownEvents, Outcome.ok tips isPush)
      | c :: s =>
        let r := runStep rok fuel LoopState.start service tips isPush c s d.2
        (evs ++ r.1, r.2)
  | Nat.succ fuel, LoopState.serviceRouter, service, tips, isPush, cmd, stdin, childOut =>
    let st2 :=
      if service = gitUploadPack then
        if strContains cmd "command=ls-refs" then LoopState.lsRefs
        else if strContains cmd "command=fetch" then LoopState.requestingWants
        else LoopState.serviceRouter
      else LoopState.serviceRouter
    match stdin with
    | [] => (Event.writeChild cmd :: shutdownEvents, Outcome.ok tips isPush)
    | c :: s =>
      let r := runStep rok fuel st2 service tips isPush c s childOut
      (Event.writeChild cmd :: r.1, r.2)
  | Nat.succ fuel, LoopState.lsRefs, service, tips, isPush, cmd, stdin, childOut =>
    if cmd = flushPkt then
      let evs0 := [Event.writeChild (packetEncode ("ref-prefix " ++ gittufRefPfx ++ "\n")),
                   Event.writeChild cmd]
      match drainLsRefsResp tips childOut with
      | (devs, none) => (evs0 ++ devs, Outcome.panicked)
      | (devs, some (tips2, rest)) =>
        let evs := evs0 ++ devs
        match stdin with
        | [] => (evs ++ shutdownEvents, Outcome.ok tips2 isPush)
        | c :: s =>
          let r := runStep rok fuel LoopState.serviceRouter service tips2 isPush c s rest
          (evs ++ r.1, r.2)
    else
      match stdin with
      | [] => (Event.writeChild cmd :: shutdownEvents, Outcome.ok tips isPush)
      | c :: s =>
        let r := runStep rok fuel LoopState.lsRefs service tips isPush c s childOut
        (Event.writeChild cmd :: r.1, r.2)
  | Nat.succ fuel, LoopState.requestingWants, service, tips, isPush, cmd, stdin, childOut =>
    if cmd = flushPkt then
      let evs0 := wantsFor tips ++ [Event.writeChild cmd]
      let d := drainPackfile stdin childOut
      let evs := evs0 ++ d.1
      match d.2.2.2 with
      | some c =>
        let r := runStep rok fuel LoopState.requestingWants service tips isPush c d.2.1 d.2.2.1
        (evs ++ r.1, r.2)
      | none => (evs ++ shutdownEvents, Outcome.ok tips isPush)
    else
      match stdin with
      | [] => (Event.writeChild cmd :: shutdownEvents, Outcome.ok tips isPush)
      | c :: s =>
        let r := runStep rok fuel LoopState.requestingWants service tips isPush c s childOut
        (Event.writeChild cmd :: r.1, r.2)

/-- The main loop entry: scan the first controller token, or shut down when
the controller stream is already exhausted. -/
def runLoop (rok : String → String → Bool) (fuel : Nat) (st : LoopState)
    (service : String) (tips : Tips) (isPush : Bool)
    (stdin childOut : List String) : List Event × Outcome :=
  match stdin with
  | [] => (shutdownEvents, Outcome.ok tips isPush)
  | c :: s => runStep rok fuel st service tips isPush c s childOut

/-- The embedded handleCurl: initial state start, empty service name, empty
tips map, isPush false.  The fuel bound exceeds the interpreter's measure
(each recursive step of runStep consumes at least one token of one stream),
so the interpreter never runs out of fuel on this bound. -/
def handleCurl (rok : String → String → Bool) (stdin childOut : List String) :
    List Event × Outcome :=
  runLoop rok (stdin.length + childOut.length + 1) LoopState.start "" [] false stdin childOut

/-- The child-stdin writes of a trace, in order. -/
def childWrites (tr : List Event) : List String :=
  tr.filterMap (fun e => match e with | Event.writeChild s => some s | _ => none)

/-- The controller-stdout writes of a trace, in order. -/
def outWrites (tr : List Event) : List String :=
  tr.filterMap (fun e => match e with | Event.writeOut s => some s | _ => none)

/-- Is the event one of the shutdown events (a close or the wait)? -/
def isCloseEvt : Event → Bool
  | Event.closeChildStdIn => true
  | Event.closeChildStdOut => true
  | Event.waitChild => true
  | _ => false

/-- Specification-side view: the prefix of a stream up to and including the
first flush-pkt (the whole stream when no flush-pkt occurs). -/
def specTakeThroughFlush : List String → List String
  | [] => []
  | o :: rest => if o = flushPkt then [o] else o :: specTakeThroughFlush rest

/-- Specification-side view: the remainder of a stream after the first
flush-pkt. -/
def specDropAfterFlush : List String → List String
  | [] => []
  | o :: rest => if o = flushPkt then rest else specDropAfterFlush rest

/-- Specification-side view: the prefix of a stream up to and including the
first response-end-pkt. -/
def specTakeThroughEnd : List String → List String
  | [] => []
  | o :: rest => if o = endOfReadPkt then [o] else o :: specTakeThroughEnd rest

/-- Specification-side view: the remainder of a stream after the first
response-end-pkt. -/
def specDropAfterEnd : List String → List String
  | [] => []
  | o :: rest => if o = endOfReadPkt then rest else specDropAfterEnd rest

/-- Record one ref advertisement in the tips map, as the ls-refs drain does. -/
def recordRefAd (tips : Tips) (p : String) : Tips :=
  match parseRefAd p with
  | some (oid, refname) =>
    if strStartsWith refname gittufRefPfx then tipsInsert tips refname oid else tips
  | none => tips

/-- Specification-side view: the tips accumulated over a list of ls-refs
response packets, skipping the sentinel frames. -/
def specRecordRefs (tips : Tips) (ps : List String) : Tips :=
  ps.foldl (fun t p => if p = flushPkt || p = endOfReadPkt then t else recordRefAd t p) tips

/-- Every key of the tips map lies under the gittuf ref namespace. -/
def allGittufKeys (t : Tips) : Prop :=
  ∀ kv ∈ t, strStartsWith kv.1 gittufRefPfx = true

/-- A trace free of close and wait events. -/
def noCloseEvts (tr : List Event) : Prop := ∀ e ∈ tr, isCloseEvt e = false

theorem drainUntilFlush_eq (out : List String) :
    drainUntilFlush out =
      ((specTakeThroughFlush out).map Event.writeOut, specDropAfterFlush out) := by
  induction out with
  | nil => rfl
  | cons o rest ih =>
    by_cases h : o = flushPkt
    · simp [drainUntilFlush, specTakeThroughFlush, specDropAfterFlush, h]
    · simp [drainUntilFlush, specTakeThroughFlush, specDropAfterFlush, h, ih]

theorem strContains_flush_pfx : strContains flushPkt gittufRefPfx = false := by decide

theorem drainPushReport_eq (out : List String) :
    drainPushReport out =
      (((specTakeThroughFlush out).filter (fun p => !strContains p gittufRefPfx)).map
         Event.writeOut,
       specDropAfterFlush out) := by
  induction out with
  | nil => rfl
  | cons o rest ih =>
    by_cases h : o = flushPkt
    · subst h
      simp [drainPushReport, specTakeThroughFlush, specDropAfterFlush,
            strContains_flush_pfx]
    · by_cases hc : strContains o gittufRefPfx
      · simp [drainPushReport, specTakeThroughFlush, specDropAfterFlush, h, hc, ih]
      · simp [drainPushReport, specTakeThroughFlush, specDropAfterFlush, h, hc, ih]

/-- Claim C5: while draining the child's push report, every packet containing
the substring refs/gittuf/ is suppressed, every other packet is written to the
controller in the order the child emitted it, and the drain stops exactly at
the first flush-pkt (the remaining child stream is what follows it). -/
theorem push_report_suppression (out : List String) :
    drainPushReport out =
      (((specTakeThroughFlush out).filter (fun p => !strContains p gittufRefPfx)).map
         Event.writeOut,
       specDropAfterFlush out) :=
  drainPushReport_eq out

/-- Claim C7: for a top-level command that is none of stateless-connect,
list for-push and push, the helper writes exactly the command bytes to the
child, then forwards the child's packets to the controller unchanged and in
order up to and including the terminating flush-pkt, and then continues the
top-level loop (or shuts down when the controller stream is exhausted). -/
theorem passthrough_fidelity (rok : String → String → Bool) (fuel : Nat)
    (service : String) (tips : Tips) (isPush : Bool) (cmd : String)
    (stdin childOut : List String)
    (h1 : strStartsWith cmd "stateless-connect" = false)
    (h2 : strStartsWith cmd "list for-push" = false)
    (h3 : strStartsWith cmd "push" = false) :
    (stdin = [] →
      runStep rok (fuel + 1) LoopState.start service tips isPush cmd stdin childOut =
        (Event.writeChild cmd :: (specTakeThroughFlush childOut).map Event.writeOut
           ++ shutdownEvents,
         Outcome.ok tips isPush))
    ∧ ∀ c s, stdin = c :: s →
        runStep rok (fuel + 1) LoopState.start service tips isPush cmd stdin childOut =
          (Event.writeChild cmd :: (specTakeThroughFlush childOut).map Event.writeOut
             ++ (runStep rok fuel LoopState.start service tips isPush c s
                   (specDropAfterFlush childOut)).1,
           (runStep rok fuel LoopState.start service tips isPush c s
              (specDropAfterFlush childOut)).2) := by
  constructor
  · intro hs
    subst hs
    simp [runStep, h1, h2, h3, drainUntilFlush_eq]
  · intro c s hs
    subst hs
    simp [runStep, h1, h2, h3, drainUntilFlush_eq]

/-- Witness for C7 at the command capabilities with a two-packet child
response. -/
theorem passthrough_fidelity_witness :
    runStep (fun _ _ => true) 1 LoopState.start "" [] false "capabilities\n" []
        ["0011fetch\n", "0000"] =
      (Event.writeChild "capabilities\n" ::
         (specTakeThroughFlush ["0011fetch\n", "0000"]).map Event.writeOut
         ++ shutdownEvents,
       Outcome.ok [] false) :=
  (passthrough_fidelity (fun _ _ => true) 0 "" [] false "capabilities\n" []
    ["0011fetch\n", "0000"] (by decide) (by decide) (by decide)).1 rfl

/-- Claim C4: during a v2 ls-refs exchange the helper forwards every inbound
packet unchanged, and writes exactly one additional pkt-line with payload
ref-prefix refs/gittuf/ and a newline, immediately before the flush-pkt that
terminates the ls-refs arguments: (i) on the terminating flush-pkt the writes
begin with the injected packet followed by the flush-pkt; (ii) on any other
packet the only write is that packet itself; (iii) a complete concrete ls-refs
session in which the injected packet occurs exactly once, immediately before
the forwarded flush-pkt. -/
theorem ls_refs_injection :
    (∀ (rok : String → String → Bool) (fuel : Nat) (service : String) (tips : Tips)
        (isPush : Bool) (stdin childOut : List String),
      ∃ tail,
        (runStep rok (fuel + 1) LoopState.lsRefs service tips isPush flushPkt stdin
            childOut).1 =
          Event.writeChild (packetEncode ("ref-prefix " ++ gittufRefPfx ++ "\n")) ::
            Event.writeChild flushPkt :: tail)
    ∧ (∀ (rok : String → String → Bool) (fuel : Nat) (service : String) (tips : Tips)
          (isPush : Bool) (cmd : String) (stdin childOut : List String),
        cmd ≠ flushPkt →
        ∃ tail,
          (runStep rok (fuel + 1) LoopState.lsRefs service tips isPush cmd stdin
              childOut).1 = Event.writeChild cmd :: tail)
    ∧ handleCurl (fun _ _ => true)
        ["stateless-connect git-upload-pack\n", "0014command=ls-refs\n",
         "000asymrefs\n", "0000"]
        ["0000", "002ddeadbeef refs/gittuf/reference-state-log\n", "0002"] =
      ([Event.writeChild "stateless-connect git-upload-pack\n",
        Event.writeOut "0000",
        Event.writeChild "0014command=ls-refs\n",
        Event.writeChild "000asymrefs\n",
        Event.writeChild "001cref-prefix refs/gittuf/\n",
        Event.writeChild "0000",
        Event.writeOut "002ddeadbeef refs/gittuf/reference-state-log\n",
        Event.writeOut "0002",
        Event.closeChildStdIn, Event.closeChildStdOut, Event.waitChild],
       Outcome.ok [("refs/gittuf/reference-state-log", "deadbeef")] false) := by
  refine ⟨?_, ?_, by decide⟩
  · intro rok fuel service tips isPush stdin childOut
    rcases hd : drainLsRefsResp tips childOut with ⟨devs, _ | ⟨tips2, rest⟩⟩
    · exact ⟨devs, by simp [runStep, hd]⟩
    · cases stdin with
      | nil => exact ⟨devs ++ shutdownEvents, by simp [runStep, hd]⟩
      | cons c s =>
        exact ⟨devs ++ (runStep rok fuel LoopState.serviceRouter service tips2 isPush
                 c s rest).1, by simp [runStep, hd]⟩
  · intro rok fuel service tips isPush cmd stdin childOut hne
    cases stdin with
    | nil => exact ⟨shutdownEvents, by simp [runStep, hne]⟩
    | cons c s =>
      exact ⟨(runStep rok fuel LoopState.lsRefs service tips isPush c s childOut).1,
             by simp [runStep, hne]⟩

/-- Witness for C4 at a non-flush argument packet. -/
theorem ls_refs_injection_witness :
    ∃ tail,
      (runStep (fun _ _ => true) 1 LoopState.lsRefs "git-upload-pack" [] false
          "0009peel\n" [] []).1 = Event.writeChild "0009peel\n" :: tail :=
  ls_refs_injection.2.1 (fun _ _ => true) 0 "git-upload-pack" [] false
    "0009peel\n" [] [] (by decide)

/-- Claim C3: in every wants batch of a v2 fetch the helper injects, right
before forwarding the terminating flush-pkt, one want pkt-line per accumulated
gittuf ref tip, and nowhere else: (i) on the terminating flush-pkt the writes
begin with the want lines followed by the flush-pkt; (ii) on any other packet
the only write is that packet itself; (iii) a complete concrete two-round
negotiation (re-entered after a response-end-pkt) in which the want line is
injected exactly once per batch, immediately before each forwarded flush. -/
theorem wants_injection_per_batch :
    (∀ (rok : String → String → Bool) (fuel : Nat) (service : String) (tips : Tips)
        (isPush : Bool) (stdin childOut : List String),
      ∃ tail,
        (runStep rok (fuel + 1) LoopState.requestingWants service tips isPush flushPkt
            stdin childOut).1 = wantsFor tips ++ Event.writeChild flushPkt :: tail)
    ∧ (∀ (rok : String → String → Bool) (fuel : Nat) (service : String) (tips : Tips)
          (isPush : Bool) (cmd : String) (stdin childOut : List String),
        cmd ≠ flushPkt →
        ∃ tail,
          (runStep rok (fuel + 1) LoopState.requestingWants service tips isPush cmd
              stdin childOut).1 = Event.writeChild cmd :: tail)
    ∧ handleCurl (fun _ _ => true)
        ["stateless-connect git-upload-pack\n", "0014command=ls-refs\n", "0000",
         "0012command=fetch\n", "0000", "0000"]
        ["0000", "002ddeadbeef refs/gittuf/reference-state-log\n", "0000", "0002",
         "0002", "0002"] =
      ([Event.writeChild "stateless-connect git-upload-pack\n",
        Event.writeOut "0000",
        Event.writeChild "0014command=ls-refs\n",
        Event.writeChild "001cref-prefix refs/gittuf/\n",
        Event.writeChild "0000",
        Event.writeOut "002ddeadbeef refs/gittuf/reference-state-log\n",
        Event.writeOut "0000",
        Event.writeOut "0002",
        Event.writeChild "0012command=fetch\n",
        Event.writeChild "0012want deadbeef\n",
        Event.writeChild "0000",
        Event.writeOut "0002",
        Event.writeChild "0012want deadbeef\n",
        Event.writeChild "0000",
        Event.writeOut "0002",
        Event.closeChildStdIn, Event.closeChildStdOut, Event.waitChild],
       Outcome.ok [("refs/gittuf/reference-state-log", "deadbeef")] false) := by
  refine ⟨?_, ?_, by decide⟩
  · intro rok fuel service tips isPush stdin childOut
    rcases hd : drainPackfile stdin childOut with ⟨devs, stdin2, rest, _ | c⟩
    · exact ⟨devs ++ shutdownEvents, by simp [runStep, hd]⟩
    · exact ⟨devs ++ (runStep rok fuel LoopState.requestingWants service tips isPush
               c stdin2 rest).1, by simp [runStep, hd]⟩
  · intro rok fuel service tips isPush cmd stdin childOut hne
    cases stdin with
    | nil => exact ⟨shutdownEvents, by simp [runStep, hne]⟩
    | cons c s =>
      exact ⟨(runStep rok fuel LoopState.requestingWants service tips isPush c s
               childOut).1, by simp [runStep, hne]⟩

/-- Witness for C3 at a non-flush wants packet. -/
theorem wants_injection_per_batch_witness :
    ∃ tail,
      (runStep (fun _ _ => true) 1 LoopState.requestingWants "git-upload-pack"
          [("refs/gittuf/reference-state-log", "deadbeef")] false
          "0032want cafebabe\n" [] []).1 =
        Event.writeChild "0032want cafebabe\n" :: tail :=
  wants_injection_per_batch.2.1 (fun _ _ => true) 0 "git-upload-pack"
    [("refs/gittuf/reference-state-log", "deadbeef")] false
    "0032want cafebabe\n" [] [] (by decide)


theorem childWrites_cons_write (s : String) (tr : List Event) :
    childWrites (Event.writeChild s :: tr) = s :: childWrites tr := rfl

theorem childWrites_cons_runRSL (d s : String) (b : Bool) (tr : List Event) :
    childWrites (Event.runRSL d s b :: tr) = childWrites tr := rfl

theorem childWrites_append (a b : List Event) :
    childWrites (a ++ b) = childWrites a ++ childWrites b :=
  List.filterMap_append a b _

theorem processPushCmds_cons_none (rok : String → String → Bool) (cmd : String)
    (rest : List String) (hp : pushCmdRefSpec cmd = none) :
    processPushCmds rok true (cmd :: rest) = ([], BatchOutcome.panicked) := by
  simp [processPushCmds, hp]

theorem processPushCmds_cons_gittuf (rok : String → String → Bool) (cmd : String)
    (rest : List String) (src dst : String)
    (hp : pushCmdRefSpec cmd = some (src, dst))
    (hdst : strStartsWith dst gittufRefPfx = true) :
    processPushCmds rok true (cmd :: rest) =
      (Event.writeChild cmd :: (processPushCmds rok true rest).1,
       (processPushCmds rok true rest).2) := by
  simp [processPushCmds, hp, hdst]

theorem processPushCmds_cons_rec (rok : String → String → Bool) (cmd : String)
    (rest : List String) (src dst : String)
    (hp : pushCmdRefSpec cmd = some (src, dst))
    (hdst : strStartsWith dst gittufRefPfx = false)
    (hrok : rok dst src = true) :
    processPushCmds rok true (cmd :: rest) =
      (Event.runRSL dst src true :: Event.writeChild cmd ::
         (processPushCmds rok true rest).1,
       (processPushCmds rok true rest).2) := by
  simp [processPushCmds, hp, hdst, hrok]

theorem processPushCmds_cons_fail (rok : String → String → Bool) (cmd : String)
    (rest : List String) (src dst : String)
    (hp : pushCmdRefSpec cmd = some (src, dst))
    (hdst : strStartsWith dst gittufRefPfx = false)
    (hrok : rok dst src = false) :
    processPushCmds rok true (cmd :: rest) =
      ([Event.runRSL dst src false], BatchOutcome.failed dst src) := by
  simp [processPushCmds, hp, hdst, hrok]

theorem processPushCmds_false (rok : String → String → Bool) (cmds : List String) :
    processPushCmds rok false cmds = (cmds.map Event.writeChild, BatchOutcome.done) := by
  induction cmds with
  | nil => rfl
  | cons cmd rest ih => simp [processPushCmds, ih]

theorem processPushCmds_done_writes (rok : String → String → Bool) (cmds : List String)
    (h : (processPushCmds rok true cmds).2 = BatchOutcome.done) :
    childWrites (processPushCmds rok true cmds).1 = cmds := by
  induction cmds with
  | nil => rfl
  | cons cmd rest ih =>
    cases hp : pushCmdRefSpec cmd with
    | none => rw [processPushCmds_cons_none rok cmd rest hp] at h; exact absurd h (by simp)
    | some sd =>
      obtain ⟨src, dst⟩ := sd
      cases hdst : strStartsWith dst gittufRefPfx with
      | true =>
        rw [processPushCmds_cons_gittuf rok cmd rest src dst hp hdst] at h ⊢
        rw [childWrites_cons_write, ih h]
      | false =>
        cases hrok : rok dst src with
        | true =>
          rw [processPushCmds_cons_rec rok cmd rest src dst hp hdst hrok] at h ⊢
          rw [childWrites_cons_runRSL, childWrites_cons_write, ih h]
        | false =>
          rw [processPushCmds_cons_fail rok cmd rest src dst hp hdst hrok] at h
          exact absurd h (by simp)

theorem processPushCmds_record_before (rok : String → String → Bool)
    (cmds : List String) :
    ∀ pre c post2,
      (processPushCmds rok true cmds).1 = pre ++ Event.writeChild c :: post2 →
      ∀ s d, pushCmdRefSpec c = some (s, d) → strStartsWith d gittufRefPfx = false →
      Event.runRSL d s true ∈ pre := by
  induction cmds with
  | nil =>
    intro pre c post2 h s d hps hpfx
    have hlen := congrArg List.length h
    simp [processPushCmds] at hlen
    omega
  | cons cmd rest ih =>
    intro pre c post2 h s d hps hpfx
    cases hp : pushCmdRefSpec cmd with
    | none =>
      rw [processPushCmds_cons_none rok cmd rest hp] at h
      have hlen := congrArg List.length h
      simp at hlen
      omega
    | some sd =>
      obtain ⟨src, dst⟩ := sd
      cases hdst : strStartsWith dst gittufRefPfx with
      | true =>
        rw [processPushCmds_cons_gittuf rok cmd rest src dst hp hdst] at h
        cases pre with
        | nil =>
          simp only [List.nil_append, List.cons.injEq, Event.writeChild.injEq] at h
          rw [h.1] at hp
          rw [hps] at hp
          simp only [Option.some.injEq, Prod.mk.injEq] at hp
          rw [hp.2] at hpfx
          rw [hpfx] at hdst
          exact absurd hdst (by simp)
        | cons e pre2 =>
          simp only [List.cons_append, List.cons.injEq] at h
          exact List.mem_cons_of_mem e (ih pre2 c post2 h.2 s d hps hpfx)
      | false =>
        cases hrok : rok dst src with
        | true =>
          rw [processPushCmds_cons_rec rok cmd rest src dst hp hdst hrok] at h
          cases pre with
          | nil =>
            simp only [List.nil_append, List.cons.injEq] at h
            exact absurd h.1 (by simp)
          | cons e pre2 =>
            simp only [List.cons_append, List.cons.injEq] at h
            cases pre2 with
            | nil =>
              simp only [List.nil_append, List.cons.injEq, Event.writeChild.injEq] at h
              rw [h.2.1] at hp
              rw [hps] at hp
              simp only [Option.some.injEq, Prod.mk.injEq] at hp
              rw [← h.1, hp.1, hp.2]
              exact List.mem_singleton.mpr rfl
            | cons e2 pre3 =>
              simp only [List.cons_append, List.cons.injEq] at h
              exact List.mem_cons_of_mem e
                (List.mem_cons_of_mem e2 (ih pre3 c post2 h.2.2 s d hps hpfx))
        | false =>
          rw [processPushCmds_cons_fail rok cmd rest src dst hp hdst hrok] at h
          cases pre with
          | nil =>
            simp only [List.nil_append, List.cons.injEq] at h
            exact absurd h.1 (by simp)
          | cons e pre2 =>
            simp only [List.cons_append, List.cons.injEq] at h
            have hlen := congrArg List.length h.2
            simp at hlen
            omega

theorem processPushCmds_failed_split (rok : String → String → Bool)
    (cmds : List String) (d s : String)
    (h : (processPushCmds rok true cmds).2 = BatchOutcome.failed d s) :
    ∃ pre c post, cmds = pre ++ c :: post ∧ pushCmdRefSpec c = some (s, d) ∧
      strStartsWith d gittufRefPfx = false ∧ rok d s = false ∧
      childWrites (processPushCmds rok true cmds).1 = pre := by
  induction cmds with
  | nil => exact absurd h (by simp [processPushCmds])
  | cons cmd rest ih =>
    cases hp : pushCmdRefSpec cmd with
    | none =>
      rw [processPushCmds_cons_none rok cmd rest hp] at h
      exact absurd h (by simp)
    | some sd =>
      obtain ⟨src, dst⟩ := sd
      cases hdst : strStartsWith dst gittufRefPfx with
      | true =>
        rw [processPushCmds_cons_gittuf rok cmd rest src dst hp hdst] at h
        obtain ⟨pre1, c, post1, hsplit, hps, hpfx, hrk, hwr⟩ := ih h
        refine ⟨cmd :: pre1, c, post1, ?_, hps, hpfx, hrk, ?_⟩
        · rw [hsplit]; rfl
        · rw [processPushCmds_cons_gittuf rok cmd rest src dst hp hdst,
              childWrites_cons_write, hwr]
      | false =>
        cases hrok : rok dst src with
        | true =>
          rw [processPushCmds_cons_rec rok cmd rest src dst hp hdst hrok] at h
          obtain ⟨pre1, c, post1, hsplit, hps, hpfx, hrk, hwr⟩ := ih h
          refine ⟨cmd :: pre1, c, post1, ?_, hps, hpfx, hrk, ?_⟩
          · rw [hsplit]; rfl
          · rw [processPushCmds_cons_rec rok cmd rest src dst hp hdst hrok,
                childWrites_cons_runRSL, childWrites_cons_write, hwr]
        | false =>
          rw [processPushCmds_cons_fail rok cmd rest src dst hp hdst hrok] at h
          simp only [BatchOutcome.failed.injEq] at h
          refine ⟨[], cmd, rest, rfl, ?_, ?_, ?_, ?_⟩
          · rw [hp, h.1, h.2]
          · rw [← h.1]; exact hdst
          · rw [← h.1, ← h.2]; exact hrok
          · rw [processPushCmds_cons_fail rok cmd rest src dst hp hdst hrok]; rfl

theorem processPushBatch_eq_done (rok : String → String → Bool) (tne : Bool)
    (cmds : List String) (h : (processPushCmds rok tne cmds).2 = BatchOutcome.done) :
    processPushBatch rok tne cmds =
      ((processPushCmds rok tne cmds).1 ++ pushBatchTail tne, BatchOutcome.done) := by
  simp [processPushBatch, h]

theorem processPushBatch_eq_failed (rok : String → String → Bool) (tne : Bool)
    (cmds : List String) (d s : String)
    (h : (processPushCmds rok tne cmds).2 = BatchOutcome.failed d s) :
    processPushBatch rok tne cmds =
      ((processPushCmds rok tne cmds).1, BatchOutcome.failed d s) := by
  simp [processPushBatch, h]

theorem processPushBatch_eq_panicked (rok : String → String → Bool) (tne : Bool)
    (cmds : List String)
    (h : (processPushCmds rok tne cmds).2 = BatchOutcome.panicked) :
    processPushBatch rok tne cmds =
      ((processPushCmds rok tne cmds).1, BatchOutcome.panicked) := by
  simp [processPushBatch, h]

theorem rslPushLine_refSpec :
    pushCmdRefSpec ("push " ++ rslRef ++ ":" ++ rslRef ++ "\n") =
      some (rslRef, rslRef) := by decide

theorem rslRef_is_gittuf : strStartsWith rslRef gittufRefPfx = true := by decide

theorem newline_refSpec : pushCmdRefSpec "\n" = none := by decide

/-- Claim C1: in a push batch against a gittuf-enabled remote, (i) every push
command written to the child whose destination ref is not under refs/gittuf/
is preceded in the event trace by a successful gittuf rsl record run for that
refspec, and (ii) when a record run fails, the batch stops with that error:
the commands actually forwarded to the child are exactly the buffered commands
strictly before the offending one, so neither the offending command nor any
later one is forwarded. -/
theorem rsl_record_precedes_push_forward (rok : String → String → Bool)
    (cmds : List String) :
    (∀ pre c post2,
      (processPushBatch rok true cmds).1 = pre ++ Event.writeChild c :: post2 →
      ∀ s d, pushCmdRefSpec c = some (s, d) → strStartsWith d gittufRefPfx = false →
      Event.runRSL d s true ∈ pre)
    ∧ ∀ d s, (processPushBatch rok true cmds).2 = BatchOutcome.failed d s →
        ∃ pre c post, cmds = pre ++ c :: post ∧ pushCmdRefSpec c = some (s, d) ∧
          strStartsWith d gittufRefPfx = false ∧ rok d s = false ∧
          childWrites (processPushBatch rok true cmds).1 = pre := by
  cases hr : (processPushCmds rok true cmds).2 with
  | done =>
    rw [processPushBatch_eq_done rok true cmds hr]
    constructor
    · intro pre c post2 h s d hps hpfx
      rcases List.append_eq_append_iff.mp h with ⟨ts, hpre, htail⟩ | ⟨ts, hcm, htc⟩
      · simp only [pushBatchTail, if_true] at htail
        cases ts with
        | nil =>
          simp only [List.nil_append, List.cons_append, List.cons.injEq,
                     Event.writeChild.injEq] at htail
          rw [← htail.1] at hps
          rw [rslPushLine_refSpec] at hps
          simp only [Option.some.injEq, Prod.mk.injEq] at hps
          rw [← hps.2, rslRef_is_gittuf] at hpfx
          exact absurd hpfx (by simp)
        | cons e ts2 =>
          cases ts2 with
          | nil =>
            simp only [List.cons_append, List.nil_append, List.cons.injEq,
                       Event.writeChild.injEq] at htail
            rw [← htail.2.1] at hps
            rw [newline_refSpec] at hps
            exact absurd hps (by simp)
          | cons e2 ts3 =>
            have hlen := congrArg List.length htail
            simp at hlen
      · cases ts with
        | nil =>
          simp only [List.nil_append] at htc
          have hhead : Event.writeChild c =
              Event.writeChild ("push " ++ rslRef ++ ":" ++ rslRef ++ "\n") := by
            have := congrArg (fun l => l.head?) htc
            simp [pushBatchTail] at this
            simp [this]
          simp only [Event.writeChild.injEq] at hhead
          rw [hhead] at hps
          rw [rslPushLine_refSpec] at hps
          simp only [Option.some.injEq, Prod.mk.injEq] at hps
          rw [← hps.2, rslRef_is_gittuf] at hpfx
          exact absurd hpfx (by simp)
        | cons e ts2 =>
          simp only [List.cons_append, List.cons.injEq] at htc
          rw [← htc.1] at hcm
          exact processPushCmds_record_before rok cmds pre c ts2 hcm s d hps hpfx
    · intro d s hfail
      exact absurd hfail (by simp)
  | failed d0 s0 =>
    rw [processPushBatch_eq_failed rok true cmds d0 s0 hr]
    constructor
    · intro pre c post2 h s d hps hpfx
      exact processPushCmds_record_before rok cmds pre c post2 h s d hps hpfx
    · intro d s hfail
      simp only [BatchOutcome.failed.injEq] at hfail
      rw [← hfail.1, ← hfail.2]
      exact processPushCmds_failed_split rok cmds d0 s0 hr
  | panicked =>
    rw [processPushBatch_eq_panicked rok true cmds hr]
    constructor
    · intro pre c post2 h s d hps hpfx
      exact processPushCmds_record_before rok cmds pre c post2 h s d hps hpfx
    · intro d s hfail
      exact absurd hfail (by simp)

/-- Witness for C1: a failing record run on a one-command batch splits the
command list at the offending command, with nothing forwarded to the child. -/
theorem rsl_record_precedes_push_forward_witness :
    ∃ pre c post,
      ["push refs/heads/main:refs/heads/main\n"] = pre ++ c :: post ∧
      pushCmdRefSpec c = some ("refs/heads/main", "refs/heads/main") ∧
      strStartsWith "refs/heads/main" gittufRefPfx = false ∧
      (fun _ _ => false : String → String → Bool) "refs/heads/main" "refs/heads/main"
        = false ∧
      childWrites (processPushBatch (fun _ _ => false) true
        ["push refs/heads/main:refs/heads/main\n"]).1 = pre :=
  (rsl_record_precedes_push_forward (fun _ _ => false)
    ["push refs/heads/main:refs/heads/main\n"]).2
    "refs/heads/main" "refs/heads/main" (by decide)

/-- Claim C2: on the terminating blank line of a push batch, (i) with a
non-gittuf-enabled remote (empty tips) the child receives exactly the buffered
push commands in order followed by the blank line, with no gittuf rsl record
run and no extra push line; (ii) with a gittuf-enabled remote, on success the
child receives exactly the buffered push commands in order, then the RSL push
line, then the blank line. -/
theorem push_batch_child_writes :
    (∀ (rok : String → String → Bool) (cmds : List String),
      processPushBatch rok false cmds =
        ((cmds ++ ["\n"]).map Event.writeChild, BatchOutcome.done))
    ∧ ∀ (rok : String → String → Bool) (cmds : List String) (tr : List Event),
        processPushBatch rok true cmds = (tr, BatchOutcome.done) →
        childWrites tr = cmds ++ ["push " ++ rslRef ++ ":" ++ rslRef ++ "\n", "\n"] := by
  constructor
  · intro rok cmds
    have hd : (processPushCmds rok false cmds).2 = BatchOutcome.done := by
      rw [processPushCmds_false]
    rw [processPushBatch_eq_done rok false cmds hd, processPushCmds_false]
    simp [pushBatchTail]
  · intro rok cmds tr h
    cases hr : (processPushCmds rok true cmds).2 with
    | done =>
      rw [processPushBatch_eq_done rok true cmds hr] at h
      have htr : tr = (processPushCmds rok true cmds).1 ++ pushBatchTail true :=
        (congrArg Prod.fst h).symm
      rw [htr, childWrites_append, processPushCmds_done_writes rok cmds hr]
      rfl
    | failed d0 s0 =>
      rw [processPushBatch_eq_failed rok true cmds d0 s0 hr] at h
      have := congrArg Prod.snd h
      exact absurd this (by simp)
    | panicked =>
      rw [processPushBatch_eq_panicked rok true cmds hr] at h
      have := congrArg Prod.snd h
      exact absurd this (by simp)

/-- Witness for C2: a concrete successful one-command batch against a
gittuf-enabled remote. -/
theorem push_batch_child_writes_witness :
    childWrites
        [Event.runRSL "refs/heads/main" "refs/heads/main" true,
         Event.writeChild "push refs/heads/main:refs/heads/main\n",
         Event.writeChild
           "push refs/gittuf/reference-state-log:refs/gittuf/reference-state-log\n",
         Event.writeChild "\n"] =
      ["push refs/heads/main:refs/heads/main\n"] ++
        ["push " ++ rslRef ++ ":" ++ rslRef ++ "\n", "\n"] :=
  push_batch_child_writes.2 (fun _ _ => true)
    ["push refs/heads/main:refs/heads/main\n"] _ (by decide)

/-- Claim C10: with a gittuf-enabled remote, processing the buffered push
commands parses each refspec by splitting the second space-separated token at
a colon and unconditionally accessing the component after the colon; the loop
is free of out-of-range accesses whenever every buffered command parses (has a
second token containing a colon), and a command whose refspec lacks a colon
does hit the out-of-range access. -/
theorem push_refspec_safety :
    (∀ (rok : String → String → Bool) (cmds : List String),
      (∀ c ∈ cmds, (pushCmdRefSpec c).isSome = true) →
      (processPushCmds rok true cmds).2 ≠ BatchOutcome.panicked)
    ∧ (processPushCmds (fun _ _ => true) true ["push refs/heads/main\n"]).2 =
        BatchOutcome.panicked := by
  constructor
  · intro rok cmds hall
    induction cmds with
    | nil => simp [processPushCmds]
    | cons cmd rest ih =>
      have hcmd := hall cmd (List.mem_cons_self cmd rest)
      obtain ⟨sd, hp⟩ := Option.isSome_iff_exists.mp hcmd
      obtain ⟨src, dst⟩ := sd
      have hrest : ∀ c ∈ rest, (pushCmdRefSpec c).isSome = true :=
        fun c hc => hall c (List.mem_cons_of_mem cmd hc)
      cases hdst : strStartsWith dst gittufRefPfx with
      | true =>
        rw [processPushCmds_cons_gittuf rok cmd rest src dst hp hdst]
        exact ih hrest
      | false =>
        cases hrok : rok dst src with
        | true =>
          rw [processPushCmds_cons_rec rok cmd rest src dst hp hdst hrok]
          exact ih hrest
        | false =>
          rw [processPushCmds_cons_fail rok cmd rest src dst hp hdst hrok]
          simp
  · decide

/-- Witness for C10: a well-shaped batch never reaches the out-of-range
access. -/
theorem push_refspec_safety_witness :
    (processPushCmds (fun _ _ => true) true ["push refs/heads/a:refs/heads/b\n"]).2 ≠
      BatchOutcome.panicked :=
  push_refspec_safety.1 (fun _ _ => true) ["push refs/heads/a:refs/heads/b\n"]
    (by decide)

theorem specRecordRefs_cons_skip (tips : Tips) (p : String) (ps : List String)
    (h : p = flushPkt ∨ p = endOfReadPkt) :
    specRecordRefs tips (p :: ps) = specRecordRefs tips ps := by
  rcases h with h | h <;> simp [specRecordRefs, h]

theorem specRecordRefs_cons (tips : Tips) (p : String) (ps : List String)
    (h1 : p ≠ flushPkt) (h2 : p ≠ endOfReadPkt) :
    specRecordRefs tips (p :: ps) = specRecordRefs (recordRefAd tips p) ps := by
  simp [specRecordRefs, h1, h2]

theorem drainLsRefsResp_eq (tips : Tips) (out : List String)
    (hall : ∀ p ∈ out, p ≠ flushPkt → p ≠ endOfReadPkt → (parseRefAd p).isSome = true) :
    drainLsRefsResp tips out =
      ((specTakeThroughEnd out).map Event.writeOut,
       some (specRecordRefs tips (specTakeThroughEnd out), specDropAfterEnd out)) := by
  induction out generalizing tips with
  | nil => simp [drainLsRefsResp, specTakeThroughEnd, specRecordRefs, specDropAfterEnd]
  | cons o rest ih =>
    have hrest : ∀ p ∈ rest, p ≠ flushPkt → p ≠ endOfReadPkt →
        (parseRefAd p).isSome = true :=
      fun p hp => hall p (List.mem_cons_of_mem o hp)
    by_cases hf : o = flushPkt
    · subst hf
      have hne : flushPkt ≠ endOfReadPkt := by decide
      rw [drainLsRefsResp, if_pos rfl, ih tips hrest]
      rw [specTakeThroughEnd, if_neg hne,
          specRecordRefs_cons_skip tips flushPkt _ (Or.inl rfl),
          specDropAfterEnd, if_neg hne]
      rfl
    · by_cases he : o = endOfReadPkt
      · subst he
        rw [drainLsRefsResp, if_neg hf, if_pos rfl]
        rw [specTakeThroughEnd, if_pos rfl,
            specDropAfterEnd, if_pos rfl,
            specRecordRefs_cons_skip tips endOfReadPkt _ (Or.inr rfl)]
        rfl
      · have hp := hall o (List.mem_cons_self o rest) hf he
        obtain ⟨pr, hpo⟩ := Option.isSome_iff_exists.mp hp
        obtain ⟨oid, refname⟩ := pr
        rw [drainLsRefsResp, if_neg hf, if_neg he, hpo]
        dsimp only
        rw [specTakeThroughEnd, if_neg he,
            specRecordRefs_cons tips o _ hf he,
            specDropAfterEnd, if_neg he]
        have hrec : recordRefAd tips o =
            (if strStartsWith refname gittufRefPfx then tipsInsert tips refname oid
             else tips) := by
          rw [recordRefAd, hpo]
        rw [hrec, ih _ hrest]
        rfl

/-- Claim C6 counterexample: the claim says parsing the payload of every
non-sentinel ls-refs response packet is well-defined and the access to the
second space-separated component never goes out of range.  The delim-pkt 0001
is neither flush-pkt nor response-end-pkt; its payload after the 4-byte length
prefix is empty, so the split yields a single field and refAdSplit at index 1
is out of range: the drain panics (modelled as none) instead of completing. -/
theorem ls_refs_parse_panics_on_delim :
    parseRefAd "0001" = none ∧ drainLsRefsResp [] ["0001"] = ([], none) := by decide

/-- Claim C6 (amended): during the ls-refs response drain, provided every
packet that is neither flush-pkt nor response-end-pkt parses as oid SP refname
(the packet is at least four bytes and its trimmed, NUL-truncated payload has
at least two space-separated fields), every packet from the child is forwarded
to the controller in order up to and including the response-end-pkt, refs
under refs/gittuf/ are recorded in the tips map with their oid, no access goes
out of range, and the drain terminates exactly on the response-end-pkt. -/
theorem ls_refs_drain_guarded (tips : Tips) (out : List String)
    (hall : ∀ p ∈ out, p ≠ flushPkt → p ≠ endOfReadPkt → (parseRefAd p).isSome = true) :
    drainLsRefsResp tips out =
      ((specTakeThroughEnd out).map Event.writeOut,
       some (specRecordRefs tips (specTakeThroughEnd out), specDropAfterEnd out)) :=
  drainLsRefsResp_eq tips out hall

/-- Witness for the amended C6 on a concrete two-packet response. -/
theorem ls_refs_drain_guarded_witness :
    drainLsRefsResp [] ["002ddeadbeef refs/gittuf/reference-state-log\n", "0002"] =
      ((specTakeThroughEnd
          ["002ddeadbeef refs/gittuf/reference-state-log\n", "0002"]).map Event.writeOut,
       some (specRecordRefs []
               (specTakeThroughEnd
                 ["002ddeadbeef refs/gittuf/reference-state-log\n", "0002"]),
             specDropAfterEnd
               ["002ddeadbeef refs/gittuf/reference-state-log\n", "0002"])) :=
  ls_refs_drain_guarded [] ["002ddeadbeef refs/gittuf/reference-state-log\n", "0002"]
    (by decide)

theorem noCloseEvts_nil : noCloseEvts [] := by intro e he; cases he

theorem noCloseEvts_cons (e : Event) (l : List Event) (he : isCloseEvt e = false)
    (hl : noCloseEvts l) : noCloseEvts (e :: l) := by
  intro x hx
  rcases List.mem_cons.mp hx with h | h
  · rw [h]; exact he
  · exact hl x h

theorem noCloseEvts_append (a b : List Event) (ha : noCloseEvts a)
    (hb : noCloseEvts b) : noCloseEvts (a ++ b) := by
  intro x hx
  rcases List.mem_append.mp hx with h | h
  · exact ha x h
  · exact hb x h

theorem noClose_writeOutMap (ps : List String) :
    noCloseEvts (ps.map Event.writeOut) := by
  intro e he
  obtain ⟨p, _, rfl⟩ := List.mem_map.mp he
  rfl

theorem noClose_writeChildMap (ps : List String) :
    noCloseEvts (ps.map Event.writeChild) := by
  intro e he
  obtain ⟨p, _, rfl⟩ := List.mem_map.mp he
  rfl

theorem noClose_wantsFor (tips : Tips) : noCloseEvts (wantsFor tips) := by
  intro e he
  obtain ⟨kv, _, rfl⟩ := List.mem_map.mp he
  rfl

theorem noClose_drainUntilFlush (out : List String) :
    noCloseEvts (drainUntilFlush out).1 := by
  rw [drainUntilFlush_eq]
  exact noClose_writeOutMap _

theorem noClose_drainPushReport (out : List String) :
    noCloseEvts (drainPushReport out).1 := by
  rw [drainPushReport_eq]
  exact noClose_writeOutMap _

theorem noClose_drainListForPush (tips : Tips) (out : List String) :
    noCloseEvts (drainListForPush tips out).1 := by
  induction out generalizing tips with
  | nil => exact noCloseEvts_nil
  | cons o rest ih =>
    by_cases h : o = flushPkt
    · rw [drainListForPush, if_pos h]
      exact noCloseEvts_cons _ _ rfl noCloseEvts_nil
    · rw [drainListForPush, if_neg h]
      exact noCloseEvts_cons _ _ rfl (ih (listForPushStep tips o))

theorem noClose_drainLsRefsResp (tips : Tips) (out : List String) :
    noCloseEvts (drainLsRefsResp tips out).1 := by
  induction out generalizing tips with
  | nil => exact noCloseEvts_nil
  | cons o rest ih =>
    by_cases hf : o = flushPkt
    · rw [drainLsRefsResp, if_pos hf]
      exact noCloseEvts_cons _ _ rfl (ih tips)
    · by_cases he : o = endOfReadPkt
      · rw [drainLsRefsResp, if_neg hf, if_pos he]
        exact noCloseEvts_cons _ _ rfl noCloseEvts_nil
      · rw [drainLsRefsResp, if_neg hf, if_neg he]
        cases hp : parseRefAd o with
        | none => exact noCloseEvts_nil
        | some pr =>
          obtain ⟨oid, refname⟩ := pr
          dsimp only
          exact noCloseEvts_cons _ _ rfl (ih _)

theorem noClose_drainPackfile (stdin out : List String) :
    noCloseEvts (drainPackfile stdin out).1 := by
  induction out generalizing stdin with
  | nil => exact noCloseEvts_nil
  | cons o rest ih =>
    by_cases he : o = endOfReadPkt
    · cases stdin with
      | nil =>
        have h1 : (drainPackfile [] (o :: rest)).1 = [Event.writeOut o] := by
          simp [drainPackfile, he]
        rw [h1]
        exact noCloseEvts_cons _ _ rfl noCloseEvts_nil
      | cons c stdin2 =>
        by_cases hc : c = ""
        · have h1 : (drainPackfile (c :: stdin2) (o :: rest)).1 = [Event.writeOut o] := by
            simp [drainPackfile, he, hc]
          rw [h1]
          exact noCloseEvts_cons _ _ rfl noCloseEvts_nil
        · have h1 : (drainPackfile (c :: stdin2) (o :: rest)).1 = [Event.writeOut o] := by
            simp [drainPackfile, he, hc]
          rw [h1]
          exact noCloseEvts_cons _ _ rfl noCloseEvts_nil
    · have h1 : (drainPackfile stdin (o :: rest)).1 =
          Event.writeOut o :: (drainPackfile stdin rest).1 := by
        simp [drainPackfile, he]
      rw [h1]
      exact noCloseEvts_cons _ _ rfl (ih stdin)

theorem noClose_processPushCmds (rok : String → String → Bool) (tne : Bool)
    (cmds : List String) : noCloseEvts (processPushCmds rok tne cmds).1 := by
  cases tne with
  | false =>
    rw [processPushCmds_false]
    exact noClose_writeChildMap cmds
  | true =>
    induction cmds with
    | nil => exact noCloseEvts_nil
    | cons cmd rest ih =>
      cases hp : pushCmdRefSpec cmd with
      | none => rw [processPushCmds_cons_none rok cmd rest hp]; exact noCloseEvts_nil
      | some sd =>
        obtain ⟨src, dst⟩ := sd
        cases hdst : strStartsWith dst gittufRefPfx with
        | true =>
          rw [processPushCmds_cons_gittuf rok cmd rest src dst hp hdst]
          exact noCloseEvts_cons _ _ rfl ih
        | false =>
          cases hrok : rok dst src with
          | true =>
            rw [processPushCmds_cons_rec rok cmd rest src dst hp hdst hrok]
            exact noCloseEvts_cons _ _ rfl (noCloseEvts_cons _ _ rfl ih)
          | false =>
            rw [processPushCmds_cons_fail rok cmd rest src dst hp hdst hrok]
            exact noCloseEvts_cons _ _ rfl noCloseEvts_nil

theorem noClose_pushBatchTail (tne : Bool) : noCloseEvts (pushBatchTail tne) := by
  cases tne with
  | false =>
    intro e he
    simp [pushBatchTail] at he
    rw [he]
    rfl
  | true =>
    intro e he
    simp [pushBatchTail] at he
    rcases he with h | h <;> (rw [h]; rfl)

theorem noClose_processPushBatch (rok : String → String → Bool) (tne : Bool)
    (cmds : List String) : noCloseEvts (processPushBatch rok tne cmds).1 := by
  cases hr : (processPushCmds rok tne cmds).2 with
  | done =>
    rw [processPushBatch_eq_done rok tne cmds hr]
    exact noCloseEvts_append _ _ (noClose_processPushCmds rok tne cmds)
      (noClose_pushBatchTail tne)
  | failed d s =>
    rw [processPushBatch_eq_failed rok tne cmds d s hr]
    exact noClose_processPushCmds rok tne cmds
  | panicked =>
    rw [processPushBatch_eq_panicked rok tne cmds hr]
    exact noClose_processPushCmds rok tne cmds

/-- The shutdown-ordering property of a run result: a successful outcome emits
the close-stdin, close-stdout, wait sequence exactly at the end of the trace,
and every other outcome emits no close or wait event at all. -/
def ShutP (p : List Event × Outcome) : Prop :=
  (∀ t i, p.2 = Outcome.ok t i → ∃ pre, p.1 = pre ++ shutdownEvents ∧ noCloseEvts pre)
  ∧ (∀ d s, p.2 = Outcome.errRecord d s → noCloseEvts p.1)
  ∧ (p.2 = Outcome.panicked → noCloseEvts p.1)
  ∧ (p.2 = Outcome.outOfFuel → noCloseEvts p.1)

theorem shutP_prefix (evs : List Event) (h : noCloseEvts evs)
    (p : List Event × Outcome) (hp : ShutP p) : ShutP (evs ++ p.1, p.2) := by
  obtain ⟨h1, h2, h3, h4⟩ := hp
  refine ⟨?_, ?_, ?_, ?_⟩
  · intro t i hok
    obtain ⟨pre, hpre, hnc⟩ := h1 t i hok
    exact ⟨evs ++ pre, by rw [hpre, List.append_assoc], noCloseEvts_append _ _ h hnc⟩
  · intro d s he
    exact noCloseEvts_append _ _ h (h2 d s he)
  · intro hpn
    exact noCloseEvts_append _ _ h (h3 hpn)
  · intro hof
    exact noCloseEvts_append _ _ h (h4 hof)

theorem shutP_ok (evs : List Event) (h : noCloseEvts evs) (t : Tips) (i : Bool) :
    ShutP (evs ++ shutdownEvents, Outcome.ok t i) :=
  ⟨fun _ _ _ => ⟨evs, rfl, h⟩,
   fun _ _ hds => absurd hds (by simp),
   fun hpn => absurd hpn (by simp),
   fun hof => absurd hof (by simp)⟩

theorem shutP_err (evs : List Event) (h : noCloseEvts evs) (d s : String) :
    ShutP (evs, Outcome.errRecord d s) :=
  ⟨fun _ _ hti => absurd hti (by simp),
   fun _ _ _ => h,
   fun hpn => absurd hpn (by simp),
   fun hof => absurd hof (by simp)⟩

theorem shutP_panic (evs : List Event) (h : noCloseEvts evs) :
    ShutP (evs, Outcome.panicked) :=
  ⟨fun _ _ hti => absurd hti (by simp),
   fun _ _ hds => absurd hds (by simp),
   fun _ => h,
   fun hof => absurd hof (by simp)⟩

theorem shutP_fuel : ShutP ([], Outcome.outOfFuel) :=
  ⟨fun _ _ hti => absurd hti (by simp),
   fun _ _ hds => absurd hds (by simp),
   fun hpn => absurd hpn (by simp),
   fun _ => noCloseEvts_nil⟩

theorem isCloseEvt_writeChild (s : String) : isCloseEvt (Event.writeChild s) = false := rfl

theorem noClose_singleton_wc (s : String) : noCloseEvts [Event.writeChild s] :=
  noCloseEvts_cons _ _ (isCloseEvt_writeChild _) noCloseEvts_nil

theorem runStep_shutP (rok : String → String → Bool) (fuel : Nat) :
    ∀ (st : LoopState) (service : String) (tips : Tips) (isPush : Bool) (cmd : String)
      (stdin childOut : List String),
      ShutP (runStep rok fuel st service tips isPush cmd stdin childOut) := by
  induction fuel with
  | zero =>
    intro st service tips isPush cmd stdin childOut
    exact shutP_fuel
  | succ fuel ih =>
    intro st service tips isPush cmd stdin childOut
    cases st with
    | start =>
      by_cases hsc : strStartsWith cmd "stateless-connect"
      · cases hsvc : serviceOf cmd with
        | none =>
          have h1 : runStep rok (fuel + 1) LoopState.start service tips isPush cmd
              stdin childOut = ([], Outcome.panicked) := by
            simp [runStep, hsc, hsvc]
          rw [h1]
          exact shutP_panic [] noCloseEvts_nil
        | some svc =>
          cases stdin with
          | nil =>
            have h1 : runStep rok (fuel + 1) LoopState.start service tips isPush cmd
                [] childOut =
                ((Event.writeChild cmd :: (drainUntilFlush childOut).1)
                   ++ shutdownEvents, Outcome.ok tips isPush) := by
              simp [runStep, hsc, hsvc]
            rw [h1]
            exact shutP_ok _ (noCloseEvts_cons _ _ (isCloseEvt_writeChild _) (noClose_drainUntilFlush childOut))
              tips isPush
          | cons c s =>
            have h1 : runStep rok (fuel + 1) LoopState.start service tips isPush cmd
                (c :: s) childOut =
                ((Event.writeChild cmd :: (drainUntilFlush childOut).1)
                   ++ (runStep rok fuel LoopState.serviceRouter svc tips isPush c s
                         (drainUntilFlush childOut).2).1,
                 (runStep rok fuel LoopState.serviceRouter svc tips isPush c s
                    (drainUntilFlush childOut).2).2) := by
              simp [runStep, hsc, hsvc]
            rw [h1]
            exact shutP_prefix _
              (noCloseEvts_cons _ _ (isCloseEvt_writeChild _) (noClose_drainUntilFlush childOut)) _
              (ih LoopState.serviceRouter svc tips isPush c s (drainUntilFlush childOut).2)
      · by_cases hlp : strStartsWith cmd "list for-push"
        · cases stdin with
          | nil =>
            have h1 : runStep rok (fuel + 1) LoopState.start service tips isPush cmd
                [] childOut =
                ((Event.writeChild cmd :: (drainListForPush tips childOut).1)
                   ++ shutdownEvents,
                 Outcome.ok (drainListForPush tips childOut).2.1 isPush) := by
              simp [runStep, hsc, hlp]
            rw [h1]
            exact shutP_ok _
              (noCloseEvts_cons _ _ (isCloseEvt_writeChild _) (noClose_drainListForPush tips childOut)) _ isPush
          | cons c s =>
            have h1 : runStep rok (fuel + 1) LoopState.start service tips isPush cmd
                (c :: s) childOut =
                ((Event.writeChild cmd :: (drainListForPush tips childOut).1)
                   ++ (runStep rok fuel LoopState.start service
                         (drainListForPush tips childOut).2.1 isPush c s
                         (drainListForPush tips childOut).2.2).1,
                 (runStep rok fuel LoopState.start service
                    (drainListForPush tips childOut).2.1 isPush c s
                    (drainListForPush tips childOut).2.2).2) := by
              simp [runStep, hsc, hlp]
            rw [h1]
            exact shutP_prefix _
              (noCloseEvts_cons _ _ (isCloseEvt_writeChild _) (noClose_drainListForPush tips childOut)) _
              (ih LoopState.start service (drainListForPush tips childOut).2.1 isPush c s
                (drainListForPush tips childOut).2.2)
        · by_cases hpu : strStartsWith cmd "push"
          · rcases hcol : collectPushBatch cmd stdin with ⟨buf, stdin2, sawTerm⟩
            cases sawTerm with
            | true =>
              rcases hb : processPushBatch rok (!tips.isEmpty) buf with ⟨bevs, br⟩
              have hbnc : noCloseEvts bevs := by
                have := noClose_processPushBatch rok (!tips.isEmpty) buf
                rw [hb] at this
                exact this
              cases br with
              | panicked =>
                have h1 : runStep rok (fuel + 1) LoopState.start service tips isPush cmd
                    stdin childOut = (bevs, Outcome.panicked) := by
                  simp [runStep, hsc, hlp, hpu, hcol, hb]
                rw [h1]
                exact shutP_panic bevs hbnc
              | failed d s =>
                have h1 : runStep rok (fuel + 1) LoopState.start service tips isPush cmd
                    stdin childOut = (bevs, Outcome.errRecord d s) := by
                  simp [runStep, hsc, hlp, hpu, hcol, hb]
                rw [h1]
                exact shutP_err bevs hbnc d s
              | done =>
                cases stdin2 with
                | nil =>
                  have h1 : runStep rok (fuel + 1) LoopState.start service tips isPush
                      cmd stdin childOut =
                      ((bevs ++ (drainPushReport childOut).1) ++ shutdownEvents,
                       Outcome.ok tips true) := by
                    simp [runStep, hsc, hlp, hpu, hcol, hb]
                  rw [h1]
                  exact shutP_ok _
                    (noCloseEvts_append _ _ hbnc (noClose_drainPushReport childOut))
                    tips true
                | cons c s =>
                  have h1 : runStep rok (fuel + 1) LoopState.start service tips isPush
                      cmd stdin childOut =
                      ((bevs ++ (drainPushReport childOut).1)
                         ++ (runStep rok fuel LoopState.start service tips true c s
                               (drainPushReport childOut).2).1,
                       (runStep rok fuel LoopState.start service tips true c s
                          (drainPushReport childOut).2).2) := by
                    simp [runStep, hsc, hlp, hpu, hcol, hb]
                  rw [h1]
                  exact shutP_prefix _
                    (noCloseEvts_append _ _ hbnc (noClose_drainPushReport childOut)) _
                    (ih LoopState.start service tips true c s (drainPushReport childOut).2)
            | false =>
              cases stdin2 with
              | nil =>
                have h1 : runStep rok (fuel + 1) LoopState.start service tips isPush cmd
                    stdin childOut =
                    ((drainPushReport childOut).1 ++ shutdownEvents,
                     Outcome.ok tips true) := by
                  simp [runStep, hsc, hlp, hpu, hcol]
                rw [h1]
                exact shutP_ok _ (noClose_drainPushReport childOut) tips true
              | cons c s =>
                have h1 : runStep rok (fuel + 1) LoopState.start service tips isPush cmd
                    stdin childOut =
                    ((drainPushReport childOut).1
                       ++ (runStep rok fuel LoopState.start service tips true c s
                             (drainPushReport childOut).2).1,
                     (runStep rok fuel LoopState.start service tips true c s
                        (drainPushReport childOut).2).2) := by
                  simp [runStep, hsc, hlp, hpu, hcol]
                rw [h1]
                exact shutP_prefix _ (noClose_drainPushReport childOut) _
                  (ih LoopState.start service tips true c s (drainPushReport childOut).2)
          · cases stdin with
            | nil =>
              have h1 : runStep rok (fuel + 1) LoopState.start service tips isPush cmd
                  [] childOut =
                  ((Event.writeChild cmd :: (drainUntilFlush childOut).1)
                     ++ shutdownEvents, Outcome.ok tips isPush) := by
                simp [runStep, hsc, hlp, hpu]
              rw [h1]
              exact shutP_ok _
                (noCloseEvts_cons _ _ (isCloseEvt_writeChild _) (noClose_drainUntilFlush childOut)) tips isPush
            | cons c s =>
              have h1 : runStep rok (fuel + 1) LoopState.start service tips isPush cmd
                  (c :: s) childOut =
                  ((Event.writeChild cmd :: (drainUntilFlush childOut).1)
                     ++ (runStep rok fuel LoopState.start service tips isPush c s
                           (drainUntilFlush childOut).2).1,
                   (runStep rok fuel LoopState.start service tips isPush c s
                      (drainUntilFlush childOut).2).2) := by
                simp [runStep, hsc, hlp, hpu]
              rw [h1]
              exact shutP_prefix _
                (noCloseEvts_cons _ _ (isCloseEvt_writeChild _) (noClose_drainUntilFlush childOut)) _
                (ih LoopState.start service tips isPush c s (drainUntilFlush childOut).2)
    | serviceRouter =>
      cases stdin with
      | nil =>
        have h1 : runStep rok (fuel + 1) LoopState.serviceRouter service tips isPush cmd
            [] childOut =
            ([Event.writeChild cmd] ++ shutdownEvents, Outcome.ok tips isPush) := by
          simp [runStep]
        rw [h1]
        exact shutP_ok _ (noClose_singleton_wc cmd) tips isPush
      | cons c s =>
        have h1 : runStep rok (fuel + 1) LoopState.serviceRouter service tips isPush cmd
            (c :: s) childOut =
            ([Event.writeChild cmd]
               ++ (runStep rok fuel
                     (if service = gitUploadPack then
                        if strContains cmd "command=ls-refs" then LoopState.lsRefs
                        else if strContains cmd "command=fetch" then
                          LoopState.requestingWants
                        else LoopState.serviceRouter
                      else LoopState.serviceRouter) service tips isPush c s childOut).1,
             (runStep rok fuel
                (if service = gitUploadPack then
                   if strContains cmd "command=ls-refs" then LoopState.lsRefs
                   else if strContains cmd "command=fetch" then LoopState.requestingWants
                   else LoopState.serviceRouter
                 else LoopState.serviceRouter) service tips isPush c s childOut).2) := by
          simp [runStep]
        rw [h1]
        exact shutP_prefix _ (noClose_singleton_wc cmd) _
          (ih _ service tips isPush c s childOut)
    | lsRefs =>
      by_cases hfl : cmd = flushPkt
      · rcases hd : drainLsRefsResp tips childOut with ⟨devs, ores⟩
        have hdnc : noCloseEvts devs := by
          have := noClose_drainLsRefsResp tips childOut
          rw [hd] at this
          exact this
        rcases ores with _ | ⟨tips2, rest⟩
        · have h1 : runStep rok (fuel + 1) LoopState.lsRefs service tips isPush cmd
              stdin childOut =
              ([Event.writeChild (packetEncode ("ref-prefix " ++ gittufRefPfx ++ "\n")),
                Event.writeChild cmd] ++ devs, Outcome.panicked) := by
            simp [runStep, hfl, hd]
          rw [h1]
          exact shutP_panic _
            (noCloseEvts_append _ _
              (noCloseEvts_cons _ _ (isCloseEvt_writeChild _) (noClose_singleton_wc cmd)) hdnc)
        · cases stdin with
          | nil =>
            have h1 : runStep rok (fuel + 1) LoopState.lsRefs service tips isPush cmd
                [] childOut =
                (([Event.writeChild (packetEncode ("ref-prefix " ++ gittufRefPfx ++ "\n")),
                   Event.writeChild cmd] ++ devs) ++ shutdownEvents,
                 Outcome.ok tips2 isPush) := by
              simp [runStep, hfl, hd]
            rw [h1]
            exact shutP_ok _
              (noCloseEvts_append _ _
                (noCloseEvts_cons _ _ (isCloseEvt_writeChild _) (noClose_singleton_wc cmd)) hdnc) tips2 isPush
          | cons c s =>
            have h1 : runStep rok (fuel + 1) LoopState.lsRefs service tips isPush cmd
                (c :: s) childOut =
                (([Event.writeChild (packetEncode ("ref-prefix " ++ gittufRefPfx ++ "\n")),
                   Event.writeChild cmd] ++ devs)
                   ++ (runStep rok fuel LoopState.serviceRouter service tips2 isPush c s
                         rest).1,
                 (runStep rok fuel LoopState.serviceRouter service tips2 isPush c s
                    rest).2) := by
              simp [runStep, hfl, hd]
            rw [h1]
            exact shutP_prefix _
              (noCloseEvts_append _ _
                (noCloseEvts_cons _ _ (isCloseEvt_writeChild _) (noClose_singleton_wc cmd)) hdnc) _
              (ih LoopState.serviceRouter service tips2 isPush c s rest)
      · cases stdin with
        | nil =>
          have h1 : runStep rok (fuel + 1) LoopState.lsRefs service tips isPush cmd
              [] childOut =
              ([Event.writeChild cmd] ++ shutdownEvents, Outcome.ok tips isPush) := by
            simp [runStep, hfl]
          rw [h1]
          exact shutP_ok _ (noClose_singleton_wc cmd) tips isPush
        | cons c s =>
          have h1 : runStep rok (fuel + 1) LoopState.lsRefs service tips isPush cmd
              (c :: s) childOut =
              ([Event.writeChild cmd]
                 ++ (runStep rok fuel LoopState.lsRefs service tips isPush c s
                       childOut).1,
               (runStep rok fuel LoopState.lsRefs service tips isPush c s childOut).2) := by
            simp [runStep, hfl]
          rw [h1]
          exact shutP_prefix _ (noClose_singleton_wc cmd) _
            (ih LoopState.lsRefs service tips isPush c s childOut)
    | requestingWants =>
      by_cases hfl : cmd = flushPkt
      · rcases hd : drainPackfile stdin childOut with ⟨devs, stdin2, rest, pd⟩
        have hdnc : noCloseEvts devs := by
          have := noClose_drainPackfile stdin childOut
          rw [hd] at this
          exact this
        rcases pd with _ | c
        · have h1 : runStep rok (fuel + 1) LoopState.requestingWants service tips isPush
              cmd stdin childOut =
              (((wantsFor tips ++ [Event.writeChild cmd]) ++ devs) ++ shutdownEvents,
               Outcome.ok tips isPush) := by
            simp [runStep, hfl, hd]
          rw [h1]
          exact shutP_ok _
            (noCloseEvts_append _ _
              (noCloseEvts_append _ _ (noClose_wantsFor tips) (noClose_singleton_wc cmd))
              hdnc) tips isPush
        · have h1 : runStep rok (fuel + 1) LoopState.requestingWants service tips isPush
              cmd stdin childOut =
              (((wantsFor tips ++ [Event.writeChild cmd]) ++ devs)
                 ++ (runStep rok fuel LoopState.requestingWants service tips isPush c
                       stdin2 rest).1,
               (runStep rok fuel LoopState.requestingWants service tips isPush c stdin2
                  rest).2) := by
            simp [runStep, hfl, hd]
          rw [h1]
          exact shutP_prefix _
            (noCloseEvts_append _ _
              (noCloseEvts_append _ _ (noClose_wantsFor tips) (noClose_singleton_wc cmd))
              hdnc) _
            (ih LoopState.requestingWants service tips isPush c stdin2 rest)
      · cases stdin with
        | nil =>
          have h1 : runStep rok (fuel + 1) LoopState.requestingWants service tips isPush
              cmd [] childOut =
              ([Event.writeChild cmd] ++ shutdownEvents, Outcome.ok tips isPush) := by
            simp [runStep, hfl]
          rw [h1]
          exact shutP_ok _ (noClose_singleton_wc cmd) tips isPush
        | cons c s =>
          have h1 : runStep rok (fuel + 1) LoopState.requestingWants service tips isPush
              cmd (c :: s) childOut =
              ([Event.writeChild cmd]
                 ++ (runStep rok fuel LoopState.requestingWants service tips isPush c s
                       childOut).1,
               (runStep rok fuel LoopState.requestingWants service tips isPush c s
                  childOut).2) := by
            simp [runStep, hfl]
          rw [h1]
          exact shutP_prefix _ (noClose_singleton_wc cmd) _
            (ih LoopState.requestingWants service tips isPush c s childOut)

/-- Claim C8 counterexample: the claim says every exit path of handleCurl,
including error paths during translation, closes the child stdin, then the
child stdout, then waits.  On this concrete run the gittuf rsl record
subprocess fails, handleCurl returns that error immediately, and the trace
contains no close and no wait event at all. -/
theorem error_path_skips_shutdown :
    handleCurl (fun _ _ => false)
        ["list for-push\n", "push refs/heads/main:refs/heads/main\n", "\n"]
        ["abc123 refs/gittuf/reference-state-log\n", "0000"] =
      ([Event.writeChild "list for-push\n",
        Event.writeOut "abc123 refs/gittuf/reference-state-log\n",
        Event.writeOut "0000",
        Event.runRSL "refs/heads/main" "refs/heads/main" false],
       Outcome.errRecord "refs/heads/main" "refs/heads/main")
    ∧ Event.closeChildStdIn ∉
        (handleCurl (fun _ _ => false)
          ["list for-push\n", "push refs/heads/main:refs/heads/main\n", "\n"]
          ["abc123 refs/gittuf/reference-state-log\n", "0000"]).1
    ∧ Event.waitChild ∉
        (handleCurl (fun _ _ => false)
          ["list for-push\n", "push refs/heads/main:refs/heads/main\n", "\n"]
          ["abc123 refs/gittuf/reference-state-log\n", "0000"]).1 := by
  refine ⟨by decide, by decide, by decide⟩

/-- Claim C8 (amended): on the success path handleCurl closes the child
stdin, then the child stdout, then waits, in that order, as the final three
events of the trace (no close or wait occurs earlier), and returns the pair
(tips, isPush); an exit path that returns an error during translation (a
failed rsl record, or a panic) returns immediately and emits no close and no
wait event. -/
theorem shutdown_ordering (rok : String → String → Bool)
    (stdin childOut : List String) :
    (∀ t i, (handleCurl rok stdin childOut).2 = Outcome.ok t i →
      ∃ pre, (handleCurl rok stdin childOut).1 = pre ++ shutdownEvents ∧
        noCloseEvts pre)
    ∧ (∀ d s, (handleCurl rok stdin childOut).2 = Outcome.errRecord d s →
        noCloseEvts (handleCurl rok stdin childOut).1)
    ∧ ((handleCurl rok stdin childOut).2 = Outcome.panicked →
        noCloseEvts (handleCurl rok stdin childOut).1) := by
  have h : ShutP (handleCurl rok stdin childOut) := by
    cases stdin with
    | nil => exact shutP_ok [] noCloseEvts_nil [] false
    | cons c s =>
      exact runStep_shutP rok ((c :: s).length + childOut.length + 1)
        LoopState.start "" [] false c s childOut
  exact ⟨h.1, h.2.1, h.2.2.1⟩

/-- Witness for the amended C8 on the empty session. -/
theorem shutdown_ordering_witness :
    ∃ pre, (handleCurl (fun _ _ => true) [] []).1 = pre ++ shutdownEvents ∧
      noCloseEvts pre :=
  (shutdown_ordering (fun _ _ => true) [] []).1 [] false (by decide)

/-- The tips map can only grow from a to b: the all-gittuf-keys invariant is
preserved and no key is lost. -/
def TipsStep (a b : Tips) : Prop :=
  (allGittufKeys a → allGittufKeys b) ∧ ∀ k, k ∈ tipsKeys a → k ∈ tipsKeys b

theorem tipsStep_refl (a : Tips) : TipsStep a a := ⟨id, fun _ h => h⟩

theorem tipsStep_trans (a b c : Tips) (hab : TipsStep a b) (hbc : TipsStep b c) :
    TipsStep a c :=
  ⟨fun h => hbc.1 (hab.1 h), fun k hk => hbc.2 k (hab.2 k hk)⟩

theorem tipsKeys_mem_insert (t : Tips) (k v x : String) (hx : x ∈ tipsKeys t) :
    x ∈ tipsKeys (tipsInsert t k v) := by
  rw [tipsInsert]
  by_cases hany : t.any (fun kv => kv.1 == k)
  · rw [if_pos hany]
    obtain ⟨kv, hkv, hfst⟩ := List.mem_map.mp hx
    refine List.mem_map.mpr ⟨_, List.mem_map.mpr ⟨kv, hkv, rfl⟩, ?_⟩
    cases hk : kv.1 == k with
    | true =>
      simp only [if_pos rfl]
      rw [← eq_of_beq hk]
      exact hfst
    | false =>
      simp only [if_neg Bool.false_ne_true]
      exact hfst
  · rw [if_neg hany]
    rw [tipsKeys, List.map_append]
    exact List.mem_append_left _ hx

theorem allGittuf_insert (t : Tips) (k v : String) (ht : allGittufKeys t)
    (hk : strStartsWith k gittufRefPfx = true) : allGittufKeys (tipsInsert t k v) := by
  intro kv hkv
  rw [tipsInsert] at hkv
  by_cases hany : t.any (fun kv2 => kv2.1 == k)
  · rw [if_pos hany] at hkv
    obtain ⟨kv0, hkv0, hfe⟩ := List.mem_map.mp hkv
    rw [← hfe]
    cases hk0 : kv0.1 == k with
    | true =>
      simp only [if_pos rfl]
      exact hk
    | false =>
      simp only [if_neg Bool.false_ne_true]
      exact ht kv0 hkv0
  · rw [if_neg hany] at hkv
    rcases List.mem_append.mp hkv with h | h
    · exact ht kv h
    · rw [List.mem_singleton.mp h]
      exact hk

theorem tipsStep_insert (t : Tips) (k v : String)
    (hk : strStartsWith k gittufRefPfx = true) : TipsStep t (tipsInsert t k v) :=
  ⟨fun ht => allGittuf_insert t k v ht hk,
   fun x hx => tipsKeys_mem_insert t k v x hx⟩

theorem tipsStep_listForPushStep (tips : Tips) (o : String) :
    TipsStep tips (listForPushStep tips o) := by
  cases hsp : strSplitChar (strTrimSpace o) ' ' with
  | nil =>
    have h1 : listForPushStep tips o = tips := by rw [listForPushStep, hsp]
    rw [h1]
    exact tipsStep_refl tips
  | cons a l =>
    cases l with
    | nil =>
      have h1 : listForPushStep tips o = tips := by rw [listForPushStep, hsp]
      rw [h1]
      exact tipsStep_refl tips
    | cons b l2 =>
      cases hb : strStartsWith b gittufRefPfx with
      | true =>
        have h1 : listForPushStep tips o = tipsInsert tips b a := by
          rw [listForPushStep, hsp]
          dsimp only
          rw [if_pos hb]
        rw [h1]
        exact tipsStep_insert tips b a hb
      | false =>
        have h1 : listForPushStep tips o = tips := by
          rw [listForPushStep, hsp]
          dsimp only
          rw [if_neg (by simp [hb])]
        rw [h1]
        exact tipsStep_refl tips

theorem tipsStep_drainListForPush (tips : Tips) (out : List String) :
    TipsStep tips (drainListForPush tips out).2.1 := by
  induction out generalizing tips with
  | nil => exact tipsStep_refl tips
  | cons o rest ih =>
    by_cases hf : o = flushPkt
    · have h1 : (drainListForPush tips (o :: rest)).2.1 = listForPushStep tips o := by
        simp [drainListForPush, hf]
      rw [h1]
      exact tipsStep_listForPushStep tips o
    · have h1 : (drainListForPush tips (o :: rest)).2.1 =
          (drainListForPush (listForPushStep tips o) rest).2.1 := by
        simp [drainListForPush, hf]
      rw [h1]
      exact tipsStep_trans _ _ _ (tipsStep_listForPushStep tips o)
        (ih (listForPushStep tips o))

theorem tipsStep_drainLsRefsResp (out : List String) :
    ∀ (tips tips2 : Tips) (rest : List String),
      (drainLsRefsResp tips out).2 = some (tips2, rest) → TipsStep tips tips2 := by
  induction out with
  | nil =>
    intro tips tips2 rest h
    simp [drainLsRefsResp] at h
    rw [← h.1]
    exact tipsStep_refl tips
  | cons o rest0 ih =>
    intro tips tips2 rest h
    by_cases hf : o = flushPkt
    · have h1 : (drainLsRefsResp tips (o :: rest0)).2 =
          (drainLsRefsResp tips rest0).2 := by
        simp [drainLsRefsResp, hf]
      rw [h1] at h
      exact ih tips tips2 rest h
    · by_cases he : o = endOfReadPkt
      · subst he
        have h1 : (drainLsRefsResp tips (endOfReadPkt :: rest0)).2 =
            some (tips, rest0) := by
          simp [drainLsRefsResp, hf]
        rw [h1] at h
        simp at h
        rw [← h.1]
        exact tipsStep_refl tips
      · cases hp : parseRefAd o with
        | none =>
          have h1 : (drainLsRefsResp tips (o :: rest0)).2 = none := by
            simp [drainLsRefsResp, hf, he, hp]
          rw [h1] at h
          exact absurd h (by simp)
        | some pr =>
          obtain ⟨oid, refname⟩ := pr
          cases hb : strStartsWith refname gittufRefPfx with
          | true =>
            have h1 : (drainLsRefsResp tips (o :: rest0)).2 =
                (drainLsRefsResp (tipsInsert tips refname oid) rest0).2 := by
              simp [drainLsRefsResp, hf, he, hp, hb]
            rw [h1] at h
            exact tipsStep_trans _ _ _ (tipsStep_insert tips refname oid hb)
              (ih (tipsInsert tips refname oid) tips2 rest h)
          | false =>
            have h1 : (drainLsRefsResp tips (o :: rest0)).2 =
                (drainLsRefsResp tips rest0).2 := by
              simp [drainLsRefsResp, hf, he, hp, hb]
            rw [h1] at h
            exact ih tips tips2 rest h

/-- The tips-growth property of a run result: a successful outcome returns a
tips map reachable from the starting one by guarded insertions only. -/
def MonoP (tips : Tips) (p : List Event × Outcome) : Prop :=
  ∀ t i, p.2 = Outcome.ok t i → TipsStep tips t

theorem monoP_prefix (tips : Tips) (evs : List Event) (p : List Event × Outcome)
    (h : MonoP tips p) : MonoP tips (evs ++ p.1, p.2) :=
  fun t i hti => h t i hti

theorem monoP_ok (tips t : Tips) (h : TipsStep tips t) (evs : List Event) (i : Bool) :
    MonoP tips (evs, Outcome.ok t i) := by
  intro t2 i2 hti
  simp only [Outcome.ok.injEq] at hti
  rw [← hti.1]
  exact h

theorem monoP_notok (tips : Tips) (evs : List Event) (r : Outcome)
    (hr : ∀ t i, r ≠ Outcome.ok t i) : MonoP tips (evs, r) :=
  fun t i hti => absurd hti (hr t i)

theorem monoP_trans (a b : Tips) (hab : TipsStep a b) (p : List Event × Outcome)
    (h : MonoP b p) : MonoP a p :=
  fun t i hti => tipsStep_trans _ _ _ hab (h t i hti)

theorem runStep_monoP (rok : String → String → Bool) (fuel : Nat) :
    ∀ (st : LoopState) (service : String) (tips : Tips) (isPush : Bool) (cmd : String)
      (stdin childOut : List String),
      MonoP tips (runStep rok fuel st service tips isPush cmd stdin childOut) := by
  induction fuel with
  | zero =>
    intro st service tips isPush cmd stdin childOut
    exact monoP_notok tips [] Outcome.outOfFuel (fun t i => by simp)
  | succ fuel ih =>
    intro st service tips isPush cmd stdin childOut
    cases st with
    | start =>
      by_cases hsc : strStartsWith cmd "stateless-connect"
      · cases hsvc : serviceOf cmd with
        | none =>
          have h1 : runStep rok (fuel + 1) LoopState.start service tips isPush cmd
              stdin childOut = ([], Outcome.panicked) := by
            simp [runStep, hsc, hsvc]
          rw [h1]
          exact monoP_notok tips [] Outcome.panicked (fun t i => by simp)
        | some svc =>
          cases stdin with
          | nil =>
            have h1 : runStep rok (fuel + 1) LoopState.start service tips isPush cmd
                [] childOut =
                ((Event.writeChild cmd :: (drainUntilFlush childOut).1)
                   ++ shutdownEvents, Outcome.ok tips isPush) := by
              simp [runStep, hsc, hsvc]
            rw [h1]
            exact monoP_ok tips tips (tipsStep_refl tips) _ isPush
          | cons c s =>
            have h1 : runStep rok (fuel + 1) LoopState.start service tips isPush cmd
                (c :: s) childOut =
                ((Event.writeChild cmd :: (drainUntilFlush childOut).1)
                   ++ (runStep rok fuel LoopState.serviceRouter svc tips isPush c s
                         (drainUntilFlush childOut).2).1,
                 (runStep rok fuel LoopState.serviceRouter svc tips isPush c s
                    (drainUntilFlush childOut).2).2) := by
              simp [runStep, hsc, hsvc]
            rw [h1]
            exact monoP_prefix tips _ _
              (ih LoopState.serviceRouter svc tips isPush c s (drainUntilFlush childOut).2)
      · by_cases hlp : strStartsWith cmd "list for-push"
        · have hstep := tipsStep_drainListForPush tips childOut
          cases stdin with
          | nil =>
            have h1 : runStep rok (fuel + 1) LoopState.start service tips isPush cmd
                [] childOut =
                ((Event.writeChild cmd :: (drainListForPush tips childOut).1)
                   ++ shutdownEvents,
                 Outcome.ok (drainListForPush tips childOut).2.1 isPush) := by
              simp [runStep, hsc, hlp]
            rw [h1]
            exact monoP_ok tips _ hstep _ isPush
          | cons c s =>
            have h1 : runStep rok (fuel + 1) LoopState.start service tips isPush cmd
                (c :: s) childOut =
                ((Event.writeChild cmd :: (drainListForPush tips childOut).1)
                   ++ (runStep rok fuel LoopState.start service
                         (drainListForPush tips childOut).2.1 isPush c s
                         (drainListForPush tips childOut).2.2).1,
                 (runStep rok fuel LoopState.start service
                    (drainListForPush tips childOut).2.1 isPush c s
                    (drainListForPush tips childOut).2.2).2) := by
              simp [runStep, hsc, hlp]
            rw [h1]
            exact monoP_prefix tips _ _
              (monoP_trans tips _ hstep _
                (ih LoopState.start service (drainListForPush tips childOut).2.1 isPush
                  c s (drainListForPush tips childOut).2.2))
        · by_cases hpu : strStartsWith cmd "push"
          · rcases hcol : collectPushBatch cmd stdin with ⟨buf, stdin2, sawTerm⟩
            cases sawTerm with
            | true =>
              rcases hb : processPushBatch rok (!tips.isEmpty) buf with ⟨bevs, br⟩
              cases br with
              | panicked =>
                have h1 : runStep rok (fuel + 1) LoopState.start service tips isPush cmd
                    stdin childOut = (bevs, Outcome.panicked) := by
                  simp [runStep, hsc, hlp, hpu, hcol, hb]
                rw [h1]
                exact monoP_notok tips bevs Outcome.panicked (fun t i => by simp)
              | failed d s =>
                have h1 : runStep rok (fuel + 1) LoopState.start service tips isPush cmd
                    stdin childOut = (bevs, Outcome.errRecord d s) := by
                  simp [runStep, hsc, hlp, hpu, hcol, hb]
                rw [h1]
                exact monoP_notok tips bevs (Outcome.errRecord d s) (fun t i => by simp)
              | done =>
                cases stdin2 with
                | nil =>
                  have h1 : runStep rok (fuel + 1) LoopState.start service tips isPush
                      cmd stdin childOut =
                      ((bevs ++ (drainPushReport childOut).1) ++ shutdownEvents,
                       Outcome.ok tips true) := by
                    simp [runStep, hsc, hlp, hpu, hcol, hb]
                  rw [h1]
                  exact monoP_ok tips tips (tipsStep_refl tips) _ true
                | cons c s =>
                  have h1 : runStep rok (fuel + 1) LoopState.start service tips isPush
                      cmd stdin childOut =
                      ((bevs ++ (drainPushReport childOut).1)
                         ++ (runStep rok fuel LoopState.start service tips true c s
                               (drainPushReport childOut).2).1,
                       (runStep rok fuel LoopState.start service tips true c s
                          (drainPushReport childOut).2).2) := by
                    simp [runStep, hsc, hlp, hpu, hcol, hb]
                  rw [h1]
                  exact monoP_prefix tips _ _
                    (ih LoopState.start service tips true c s (drainPushReport childOut).2)
            | false =>
              cases stdin2 with
              | nil =>
                have h1 : runStep rok (fuel + 1) LoopState.start service tips isPush cmd
                    stdin childOut =
                    ((drainPushReport childOut).1 ++ shutdownEvents,
                     Outcome.ok tips true) := by
                  simp [runStep, hsc, hlp, hpu, hcol]
                rw [h1]
                exact monoP_ok tips tips (tipsStep_refl tips) _ true
              | cons c s =>
                have h1 : runStep rok (fuel + 1) LoopState.start service tips isPush cmd
                    stdin childOut =
                    ((drainPushReport childOut).1
                       ++ (runStep rok fuel LoopState.start service tips true c s
                             (drainPushReport childOut).2).1,
                     (runStep rok fuel LoopState.start service tips true c s
                        (drainPushReport childOut).2).2) := by
                  simp [runStep, hsc, hlp, hpu, hcol]
                rw [h1]
                exact monoP_prefix tips _ _
                  (ih LoopState.start service tips true c s (drainPushReport childOut).2)
          · cases stdin with
            | nil =>
              have h1 : runStep rok (fuel + 1) LoopState.start service tips isPush cmd
                  [] childOut =
                  ((Event.writeChild cmd :: (drainUntilFlush childOut).1)
                     ++ shutdownEvents, Outcome.ok tips isPush) := by
                simp [runStep, hsc, hlp, hpu]
              rw [h1]
              exact monoP_ok tips tips (tipsStep_refl tips) _ isPush
            | cons c s =>
              have h1 : runStep rok (fuel + 1) LoopState.start service tips isPush cmd
                  (c :: s) childOut =
                  ((Event.writeChild cmd :: (drainUntilFlush childOut).1)
                     ++ (runStep rok fuel LoopState.start service tips isPush c s
                           (drainUntilFlush childOut).2).1,
                   (runStep rok fuel LoopState.start service tips isPush c s
                      (drainUntilFlush childOut).2).2) := by
                simp [runStep, hsc, hlp, hpu]
              rw [h1]
              exact monoP_prefix tips _ _
                (ih LoopState.start service tips isPush c s (drainUntilFlush childOut).2)
    | serviceRouter =>
      cases stdin with
      | nil =>
        have h1 : runStep rok (fuel + 1) LoopState.serviceRouter service tips isPush cmd
            [] childOut =
            ([Event.writeChild cmd] ++ shutdownEvents, Outcome.ok tips isPush) := by
          simp [runStep]
        rw [h1]
        exact monoP_ok tips tips (tipsStep_refl tips) _ isPush
      | cons c s =>
        have h1 : runStep rok (fuel + 1) LoopState.serviceRouter service tips isPush cmd
            (c :: s) childOut =
            ([Event.writeChild cmd]
               ++ (runStep rok fuel
                     (if service = gitUploadPack then
                        if strContains cmd "command=ls-refs" then LoopState.lsRefs
                        else if strContains cmd "command=fetch" then
                          LoopState.requestingWants
                        else LoopState.serviceRouter
                      else LoopState.serviceRouter) service tips isPush c s childOut).1,
             (runStep rok fuel
                (if service = gitUploadPack then
                   if strContains cmd "command=ls-refs" then LoopState.lsRefs
                   else if strContains cmd "command=fetch" then LoopState.requestingWants
                   else LoopState.serviceRouter
                 else LoopState.serviceRouter) service tips isPush c s childOut).2) := by
          simp [runStep]
        rw [h1]
        exact monoP_prefix tips _ _ (ih _ service tips isPush c s childOut)
    | lsRefs =>
      by_cases hfl : cmd = flushPkt
      · rcases hd : drainLsRefsResp tips childOut with ⟨devs, ores⟩
        rcases ores with _ | ⟨tips2, rest⟩
        · have h1 : runStep rok (fuel + 1) LoopState.lsRefs service tips isPush cmd
              stdin childOut =
              ([Event.writeChild (packetEncode ("ref-prefix " ++ gittufRefPfx ++ "\n")),
                Event.writeChild cmd] ++ devs, Outcome.panicked) := by
            simp [runStep, hfl, hd]
          rw [h1]
          exact monoP_notok tips _ Outcome.panicked (fun t i => by simp)
        · have hstep : TipsStep tips tips2 := by
            refine tipsStep_drainLsRefsResp childOut tips tips2 rest ?_
            rw [hd]
          cases stdin with
          | nil =>
            have h1 : runStep rok (fuel + 1) LoopState.lsRefs service tips isPush cmd
                [] childOut =
                (([Event.writeChild (packetEncode ("ref-prefix " ++ gittufRefPfx ++ "\n")),
                   Event.writeChild cmd] ++ devs) ++ shutdownEvents,
                 Outcome.ok tips2 isPush) := by
              simp [runStep, hfl, hd]
            rw [h1]
            exact monoP_ok tips tips2 hstep _ isPush
          | cons c s =>
            have h1 : runStep rok (fuel + 1) LoopState.lsRefs service tips isPush cmd
                (c :: s) childOut =
                (([Event.writeChild (packetEncode ("ref-prefix " ++ gittufRefPfx ++ "\n")),
                   Event.writeChild cmd] ++ devs)
                   ++ (runStep rok fuel LoopState.serviceRouter service tips2 isPush c s
                         rest).1,
                 (runStep rok fuel LoopState.serviceRouter service tips2 isPush c s
                    rest).2) := by
              simp [runStep, hfl, hd]
            rw [h1]
            exact monoP_prefix tips _ _
              (monoP_trans tips tips2 hstep _
                (ih LoopState.serviceRouter service tips2 isPush c s rest))
      · cases stdin with
        | nil =>
          have h1 : runStep rok (fuel + 1) LoopState.lsRefs service tips isPush cmd
              [] childOut =
              ([Event.writeChild cmd] ++ shutdownEvents, Outcome.ok tips isPush) := by
            simp [runStep, hfl]
          rw [h1]
          exact monoP_ok tips tips (tipsStep_refl tips) _ isPush
        | cons c s =>
          have h1 : runStep rok (fuel + 1) LoopState.lsRefs service tips isPush cmd
              (c :: s) childOut =
              ([Event.writeChild cmd]
                 ++ (runStep rok fuel LoopState.lsRefs service tips isPush c s
                       childOut).1,
               (runStep rok fuel LoopState.lsRefs service tips isPush c s childOut).2) := by
            simp [runStep, hfl]
          rw [h1]
          exact monoP_prefix tips _ _ (ih LoopState.lsRefs service tips isPush c s childOut)
    | requestingWants =>
      by_cases hfl : cmd = flushPkt
      · rcases hd : drainPackfile stdin childOut with ⟨devs, stdin2, rest, pd⟩
        rcases pd with _ | c
        · have h1 : runStep rok (fuel + 1) LoopState.requestingWants service tips isPush
              cmd stdin childOut =
              (((wantsFor tips ++ [Event.writeChild cmd]) ++ devs) ++ shutdownEvents,
               Outcome.ok tips isPush) := by
            simp [runStep, hfl, hd]
          rw [h1]
          exact monoP_ok tips tips (tipsStep_refl tips) _ isPush
        · have h1 : runStep rok (fuel + 1) LoopState.requestingWants service tips isPush
              cmd stdin childOut =
              (((wantsFor tips ++ [Event.writeChild cmd]) ++ devs)
                 ++ (runStep rok fuel LoopState.requestingWants service tips isPush c
                       stdin2 rest).1,
               (runStep rok fuel LoopState.requestingWants service tips isPush c stdin2
                  rest).2) := by
            simp [runStep, hfl, hd]
          rw [h1]
          exact monoP_prefix tips _ _
            (ih LoopState.requestingWants service tips isPush c stdin2 rest)
      · cases stdin with
        | nil =>
          have h1 : runStep rok (fuel + 1) LoopState.requestingWants service tips isPush
              cmd [] childOut =
              ([Event.writeChild cmd] ++ shutdownEvents, Outcome.ok tips isPush) := by
            simp [runStep, hfl]
          rw [h1]
          exact monoP_ok tips tips (tipsStep_refl tips) _ isPush
        | cons c s =>
          have h1 : runStep rok (fuel + 1) LoopState.requestingWants service tips isPush
              cmd (c :: s) childOut =
              ([Event.writeChild cmd]
                 ++ (runStep rok fuel LoopState.requestingWants service tips isPush c s
                       childOut).1,
               (runStep rok fuel LoopState.requestingWants service tips isPush c s
                  childOut).2) := by
            simp [runStep, hfl]
          rw [h1]
          exact monoP_prefix tips _ _
            (ih LoopState.requestingWants service tips isPush c s childOut)

/-- Claim C9: every key present in the gittufRefsTips mapping lies under
refs/gittuf/ (both insertion sites guard on that prefix), and no entry is ever
removed: (i) insertion preserves every existing key; (ii) any successful run
of handleCurl returns a tips map all of whose keys start with refs/gittuf/. -/
theorem tips_keys_invariant :
    (∀ (t : Tips) (k v x : String), x ∈ tipsKeys t → x ∈ tipsKeys (tipsInsert t k v))
    ∧ ∀ (rok : String → String → Bool) (stdin childOut : List String) (t : Tips)
        (i : Bool),
        (handleCurl rok stdin childOut).2 = Outcome.ok t i → allGittufKeys t := by
  constructor
  · intro t k v x hx
    exact tipsKeys_mem_insert t k v x hx
  · intro rok stdin childOut t i h
    have hm : MonoP [] (handleCurl rok stdin childOut) := by
      cases stdin with
      | nil => exact monoP_ok [] [] (tipsStep_refl []) shutdownEvents false
      | cons c s =>
        exact runStep_monoP rok ((c :: s).length + childOut.length + 1)
          LoopState.start "" [] false c s childOut
    exact (hm t i h).1 (fun kv hkv => absurd hkv (List.not_mem_nil kv))

/-- Witness for C9 on a concrete ls-refs session discovering one gittuf ref. -/
theorem tips_keys_invariant_witness :
    allGittufKeys [("refs/gittuf/reference-state-log", "cafebabe")] :=
  tips_keys_invariant.2 (fun _ _ => true)
    ["stateless-connect git-upload-pack\n", "0014command=ls-refs\n", "0000"]
    ["0000", "002dcafebabe refs/gittuf/reference-state-log\n", "0002"]
    [("refs/gittuf/reference-state-log", "cafebabe")] false (by decide)
